import Mathlib

/-!
Verification of the per-iteration bounce loop of the CUDA path tracer in
src/pathtrace.cu (repository Project3-CUDA-Path-Tracer).

The kernels of pathtrace.cu are shallowly embedded as pure Lean functions:

* scalar float values are modelled as rationals;
* the per-pixel / per-path CUDA kernels become per-element functions mapped
  over lists (each CUDA thread touches only its own slot, and every kernel
  launch is followed by a synchronization point, so a sequential map over
  the slots is an exact model of one launch);
* device buffers become lists threaded through an explicit loop state;
* external code that pathtrace.cu calls but that is not part of this
  source file (the primitive tests of intersections.h, glm normalize, the
  utilhash function of utilities.h) is kept abstract as fields of an
  environment structure Env, so every theorem quantifies over it;
* thrust::default_random_engine is minstd_rand, the linear congruential
  generator x := 48271 * x mod m with m = 2^31 - 1, whose states range
  over [1, m - 1]; thrust::uniform_real_distribution maps one engine draw
  into [a, b), modelled as a + (b - a) * ((s - 1) / (m - 1)) with s the
  new engine state, so a draw lands in [a, b).
-/

/-- glm::vec3 with exact rational components. -/
structure Vec3 where
  x : ℚ
  y : ℚ
  z : ℚ
deriving DecidableEq, Repr

namespace Vec3

/-- Componentwise addition (glm operator+). -/
def add (a b : Vec3) : Vec3 := ⟨a.x + b.x, a.y + b.y, a.z + b.z⟩

/-- Componentwise subtraction (glm operator-). -/
def sub (a b : Vec3) : Vec3 := ⟨a.x - b.x, a.y - b.y, a.z - b.z⟩

/-- Componentwise (Hadamard) product, glm operator* on two vectors. -/
def mul (a b : Vec3) : Vec3 := ⟨a.x * b.x, a.y * b.y, a.z * b.z⟩

/-- Scalar multiple, glm operator* with a float. -/
def scale (q : ℚ) (a : Vec3) : Vec3 := ⟨q * a.x, q * a.y, q * a.z⟩

/-- glm::vec3(0.0f). -/
def zero : Vec3 := ⟨0, 0, 0⟩

/-- glm::vec3(1.0f, 1.0f, 1.0f). -/
def ones : Vec3 := ⟨1, 1, 1⟩

/-- All three channels are non-negative. -/
def Nonneg (a : Vec3) : Prop := 0 ≤ a.x ∧ 0 ≤ a.y ∧ 0 ≤ a.z

instance : Add Vec3 := ⟨add⟩
instance : Inhabited Vec3 := ⟨zero⟩

instance (a : Vec3) : Decidable a.Nonneg := by
  unfold Nonneg; infer_instance

end Vec3

/-- The Ray struct of sceneStructs.h: origin, direction, and the cached
intersection point that computeIntersections writes and the shader reads. -/
structure RayT where
  origin : Vec3
  direction : Vec3
  intersect : Vec3
deriving DecidableEq, Repr

/-- The PathSegment struct of sceneStructs.h, as used by pathtrace.cu:
a ray, the accumulated color (throughput), the destination pixel, and the
remaining bounce budget (a C int, hence ℤ). -/
structure PathSegment where
  ray : RayT
  color : Vec3
  pixelIndex : ℕ
  remainingBounces : ℤ
deriving DecidableEq, Repr

instance : Inhabited PathSegment :=
  ⟨{ ray := ⟨Vec3.zero, Vec3.zero, Vec3.zero⟩, color := Vec3.zero,
     pixelIndex := 0, remainingBounces := 0 }⟩

/-- The ShadeableIntersection struct: hit distance t (-1 sentinel for a
miss), the material of the hit, and the surface normal.  The device buffer
is memset to zero before every depth, so unset fields read as zero. -/
structure ShadeableIntersection where
  t : ℚ
  materialId : ℕ
  surfaceNormal : Vec3
deriving DecidableEq, Repr

instance : Inhabited ShadeableIntersection := ⟨⟨0, 0, Vec3.zero⟩⟩

/-- The geometry type tag of sceneStructs.h used by computeIntersections:
analytic primitives CUBE and SPHERE, and the bounding-volume node BV that
gates the triangle collection. -/
inductive GType where
  | CUBE
  | SPHERE
  | BV
deriving DecidableEq, Repr

/-- A Geom as consumed by computeIntersections: its type tag and its
material id (transform data lives inside the abstract primitive tests). -/
structure Geom where
  gtype : GType
  materialid : ℕ
deriving DecidableEq, Repr

instance : Inhabited Geom := ⟨⟨GType.CUBE, 0⟩⟩

/-- A Material as consumed by shadeMaterial: base color and emittance. -/
structure Material where
  color : Vec3
  emittance : ℚ
deriving DecidableEq, Repr

instance : Inhabited Material := ⟨⟨Vec3.zero, 0⟩⟩

/-- The Camera fields read by generateRayFromCamera. -/
structure Camera where
  resolutionX : ℕ
  resolutionY : ℕ
  position : Vec3
  view : Vec3
  up : Vec3
  right : Vec3
  pixelLengthX : ℚ
  pixelLengthY : ℚ

/-- Result of one primitive intersection test: the returned parametric
distance t (non-positive means miss) and the point / normal written
through the tmp_intersect / tmp_normal reference arguments. -/
structure HitRes where
  t : ℚ
  point : Vec3
  normal : Vec3

/-- External code called by pathtrace.cu but defined outside it:
the primitive tests of intersections.h, glm::normalize, utilhash of
utilities.h, and the direction sampling inside scatterRay.  All theorems
quantify over this environment. -/
structure Env where
  utilhash : ℕ → ℕ
  normalizeV : Vec3 → Vec3
  boxTest : Geom → RayT → HitRes
  sphereTest : Geom → RayT → HitRes
  triTest : Geom → RayT → HitRes
  bvGate : Geom → RayT → Bool
  sampleDir : Vec3 → ℚ → Vec3

/-- Modulus of thrust::default_random_engine (minstd_rand): 2^31 - 1. -/
def lcgM : ℕ := 2147483647

/-- Multiplier of minstd_rand. -/
def lcgA : ℕ := 48271

/-- Seeding of a linear_congruential_engine with increment 0: a seed that
is 0 mod m is replaced by 1. -/
def engSeed (h : ℕ) : ℕ := if h % lcgM = 0 then 1 else h % lcgM

/-- One engine step: x := 48271 * x mod (2^31 - 1). -/
def engNext (s : ℕ) : ℕ := (lcgA * s) % lcgM

/-- One draw of thrust::uniform_real_distribution(0, 1): advance the
engine and map its state into [0, 1).  Returns the sample and the new
engine state. -/
def draw01 (s : ℕ) : ℚ × ℕ :=
  (((engNext s - 1 : ℕ) : ℚ) / ((lcgM - 1 : ℕ) : ℚ), engNext s)

/-- Reduction of a C int expression to its 32-bit value. -/
def w32 (n : ℕ) : ℕ := n % 4294967296

/-- makeSeededRandomEngine of pathtrace.cu:
utilhash((1 << 31) | (depth << 22) | iter) ^ utilhash(index), used to seed
a thrust::default_random_engine.  We return the seeded engine state. -/
def makeSeededRandomEngine (E : Env) (iter index depth : ℕ) : ℕ :=
  engSeed (w32 (Nat.xor
    (E.utilhash (w32 ((2 ^ 31) ||| (depth <<< 22) ||| iter)))
    (E.utilhash index)))

/-- The body of the generateRayFromCamera kernel for pixel (x, y):
origin at the camera, white initial throughput, direction jittered inside
the pixel footprint by two draws of uniform_real_distribution(-0.5, 0.5)
from the engine makeSeededRandomEngine(iter, x, y), pixelIndex
x + y * resolution.x, and remainingBounces = traceDepth.
The cached ray.intersect field is left at its zero initialization. -/
def generateRayForPixel (E : Env) (cam : Camera) (iter traceDepth : ℕ)
    (x y : ℕ) : PathSegment :=
  let s0 := makeSeededRandomEngine E iter x y
  let d1 := draw01 s0
  let xOffset := -(1 / 2 : ℚ) + d1.1
  let d2 := draw01 d1.2
  let yOffset := -(1 / 2 : ℚ) + d2.1
  let dir := E.normalizeV (Vec3.sub
    (Vec3.sub cam.view
      (Vec3.scale (cam.pixelLengthX *
        ((x : ℚ) + xOffset - (cam.resolutionX : ℚ) * (1 / 2))) cam.right))
    (Vec3.scale (cam.pixelLengthY *
      ((y : ℚ) + yOffset - (cam.resolutionY : ℚ) * (1 / 2))) cam.up))
  { ray := { origin := cam.position, direction := dir, intersect := Vec3.zero },
    color := Vec3.ones,
    pixelIndex := x + y * cam.resolutionX,
    remainingBounces := (traceDepth : ℤ) }

/-- One full launch of generateRayFromCamera: slot i of dev_paths holds
the ray of pixel (i mod resolution.x, i div resolution.x). -/
def generateRays (E : Env) (cam : Camera) (iter traceDepth : ℕ) :
    List PathSegment :=
  (List.range (cam.resolutionX * cam.resolutionY)).map
    (fun i => generateRayForPixel E cam iter traceDepth
      (i % cam.resolutionX) (i / cam.resolutionX))

/-- FLT_MAX, the initial value of t_min in computeIntersections, as an
exact rational: (2^24 - 1) * 2^104. -/
def fltMax : ℚ := 340282346638528859811704183484516925440

/-- The local variables of one computeIntersections thread.  t,
tmp_intersect, tmp_normal, intersect_point and normal are uninitialized
locals in the CUDA code; we model their initial values as zero.  The only
places that read them before the first write are guarded by t > 0, which
a zero initial t does not satisfy.  rayIntersect mirrors the in-place
update of pathSegments[path_index].ray.intersect. -/
structure IsectState where
  t : ℚ
  t_min : ℚ
  hit_geom_index : ℤ
  hitmesh : Bool
  intersect_point : Vec3
  normal : Vec3
  tmp_intersect : Vec3
  tmp_normal : Vec3
  rayIntersect : Vec3
deriving DecidableEq, Repr

/-- Initial thread state of computeIntersections for one path. -/
def isectInit (r : RayT) : IsectState :=
  { t := 0, t_min := fltMax, hit_geom_index := -1, hitmesh := false,
    intersect_point := Vec3.zero, normal := Vec3.zero,
    tmp_intersect := Vec3.zero, tmp_normal := Vec3.zero,
    rayIntersect := r.intersect }

/-- One pass of the inner triangle loop of computeIntersections:
run triangleIntersectionTest, and on a strictly nearer positive hit
record distance, index, point and normal, update the cached ray
intersection point, and set the hitmesh flag. -/
def triStep (E : Env) (ray : RayT) (s : IsectState) (p : ℕ) (tri : Geom) :
    IsectState :=
  let r := E.triTest tri ray
  let s1 := { s with t := r.t, tmp_intersect := r.point, tmp_normal := r.normal }
  if r.t > 0 ∧ s1.t_min > r.t then
    { s1 with
      t_min := r.t,
      hit_geom_index := (p : ℤ),
      intersect_point := r.point,
      normal := r.normal,
      rayIntersect := r.point,
      hitmesh := true }
  else s1

/-- The inner triangle loop of computeIntersections, folding triStep over
the triangle collection with its running index p. -/
def triLoop (E : Env) (ray : RayT) :
    IsectState → ℕ → List Geom → IsectState
  | s, _, [] => s
  | s, p, tri :: rest => triLoop E ray (triStep E ray s p tri) (p + 1) rest

/-- The analytic nearest-hit update that closes every pass of the outer
geometry loop (the comparison after the type dispatch): a strictly
nearer positive t wins, unless the hitmesh flag is set. -/
def analyticUpdate (s : IsectState) (i : ℕ) : IsectState :=
  if s.t > 0 ∧ s.t_min > s.t ∧ s.hitmesh = false then
    { s with
      t_min := s.t,
      hit_geom_index := (i : ℤ),
      intersect_point := s.tmp_intersect,
      normal := s.tmp_normal,
      rayIntersect := s.tmp_intersect }
  else s

/-- One pass of the outer geometry loop of computeIntersections:
dispatch on the geometry type (CUBE and SPHERE run their analytic test;
BV runs the bounding gate and, when it passes, the whole triangle loop),
then run the trailing nearest-hit comparison, which the code reaches for
every geometry type. -/
def geomStep (E : Env) (triangles : List Geom) (ray : RayT)
    (s : IsectState) (i : ℕ) (g : Geom) : IsectState :=
  let s1 :=
    match g.gtype with
    | GType.CUBE =>
      let r := E.boxTest g ray
      { s with t := r.t, tmp_intersect := r.point, tmp_normal := r.normal }
    | GType.SPHERE =>
      let r := E.sphereTest g ray
      { s with t := r.t, tmp_intersect := r.point, tmp_normal := r.normal }
    | GType.BV =>
      if E.bvGate g ray then triLoop E ray s 0 triangles
      else s
  analyticUpdate s1 i

/-- The outer geometry loop of computeIntersections, folding geomStep
over the geometry collection with its running index i. -/
def geomLoop (E : Env) (triangles : List Geom) (ray : RayT) :
    IsectState → ℕ → List Geom → IsectState
  | s, _, [] => s
  | s, i, g :: rest =>
    geomLoop E triangles ray (geomStep E triangles ray s i g) (i + 1) rest

/-- The whole body of one computeIntersections thread: fold the geometry
loop, then write the output intersection record (t = -1 on a miss,
leaving materialId and normal at their memset zeros; on a hit, t_min, the
normal, and the material id of whichever collection owns the recorded
hit), and return the path with its updated cached ray.intersect. -/
def computeIntersectionsOne (E : Env) (geoms triangles : List Geom)
    (path : PathSegment) : ShadeableIntersection × PathSegment :=
  let s := geomLoop E triangles path.ray (isectInit path.ray) 0 geoms
  let isect :=
    if s.hit_geom_index = -1 then
      { t := -1, materialId := 0, surfaceNormal := Vec3.zero }
    else
      { t := s.t_min,
        materialId :=
          if s.hitmesh = false then
            (geoms.getD s.hit_geom_index.toNat default).materialid
          else
            (triangles.getD s.hit_geom_index.toNat default).materialid,
        surfaceNormal := s.normal }
  (isect, { path with ray := { path.ray with intersect := s.rayIntersect } })

/-- Modelled from the spec: scatterRay lives in interactions.h, which is
not part of the given source.  Per the spec it produces a new ray with
origin at the cached intersection point and a direction drawn from the
material reflectance model using the random stream, and attenuates the
throughput by the material color weighted by the sampling outcome u. -/
def scatterRay (E : Env) (path : PathSegment) (ipt normal : Vec3)
    (m : Material) (u : ℚ) : PathSegment :=
  { path with
    ray := { origin := ipt, direction := E.sampleDir normal u,
             intersect := path.ray.intersect },
    color := Vec3.mul path.color (Vec3.scale u m.color) }

/-- The body of one shadeMaterial thread at array slot idx: on a live path
with a hit, an emissive material absorbs (throughput times color times
emittance, remainingBounces forced to 0) and a non-emissive one scatters
(scatterRay, then remainingBounces decremented by one); a live path with
no hit goes black and terminates; a path with no remaining bounces is
left untouched.  The random engine is seeded with (iter, idx, depth). -/
def shadeOne (E : Env) (materials : List Material) (iter depth idx : ℕ)
    (isect : ShadeableIntersection) (path : PathSegment) : PathSegment :=
  if isect.t > 0 ∧ path.remainingBounces > 0 then
    let s0 := makeSeededRandomEngine E iter idx depth
    let u := (draw01 s0).1
    let m := materials.getD isect.materialId default
    if m.emittance > 0 then
      { path with
        color := Vec3.mul path.color (Vec3.scale m.emittance m.color),
        remainingBounces := 0 }
    else
      let p1 := scatterRay E path path.ray.intersect isect.surfaceNormal m u
      { p1 with remainingBounces := p1.remainingBounces - 1 }
  else if path.remainingBounces > 0 then
    { path with color := Vec3.zero, remainingBounces := 0 }
  else path

/-- One launch of shadeMaterial over the zipped intersection / path
buffers, threading the array slot index used to seed the engine. -/
def shadeList (E : Env) (materials : List Material) (iter depth : ℕ) :
    ℕ → List (ShadeableIntersection × PathSegment) → List PathSegment
  | _, [] => []
  | idx, ip :: rest =>
    shadeOne E materials iter depth idx ip.1 ip.2 ::
      shadeList E materials iter depth (idx + 1) rest

/-- Key of the optional material sort: setMaterialIds copies
intersections[idx].materialId into both key buffers. -/
def sortKey (ip : ShadeableIntersection × PathSegment) : ℕ := ip.1.materialId

/-- The optional material-sort stage (MATERIALS): the code sorts the path
buffer and the intersection buffer with two thrust::sort_by_key calls on
bitwise-identical key buffers; the library sort is a deterministic
function of the keys, so both calls apply the same permutation, which we
model as one stable sort of the zipped buffers by material id. -/
def sortStage (pairs : List (ShadeableIntersection × PathSegment)) :
    List (ShadeableIntersection × PathSegment) :=
  pairs.insertionSort (fun a b => sortKey a ≤ sortKey b)

/-- The predicate handed to thrust::partition (the struct is named
has_no_bounces in the code, but it selects the paths that still have
bounces, which thrust::partition places in the first group). -/
def has_no_bounces (p : PathSegment) : Bool :=
  decide (p.remainingBounces > 0)

/-- The per-iteration loop state: the full dev_paths buffer (the tail
beyond numPaths holds paths compacted away at earlier depths), the live
count num_paths, and the current depth. -/
structure LoopState where
  paths : List PathSegment
  numPaths : ℕ
  depth : ℕ
deriving Repr

/-- One pass of the while loop of pathtrace: computeIntersections over
the active prefix, depth increment, optional material sort, shadeMaterial
(which receives the already incremented depth), and the thrust::partition
compaction that keeps still-bouncing paths first and reports their count
as the new num_paths. -/
def loopStep (E : Env) (geoms triangles : List Geom)
    (materials : List Material) (iter : ℕ) (matSort : Bool)
    (s : LoopState) : LoopState :=
  let act := s.paths.take s.numPaths
  let tl := s.paths.drop s.numPaths
  let pairs := act.map (fun p => computeIntersectionsOne E geoms triangles p)
  let pairs2 := if matSort then sortStage pairs else pairs
  let shaded := shadeList E materials iter (s.depth + 1) 0 pairs2
  let parts := shaded.partition has_no_bounces
  { paths := parts.1 ++ parts.2 ++ tl,
    numPaths := parts.1.length,
    depth := s.depth + 1 }

/-- The exit test at the bottom of the while loop. -/
def loopExit (traceDepth : ℕ) (s : LoopState) : Bool :=
  decide (s.depth = traceDepth ∨ s.numPaths = 0)

/-- The while loop of pathtrace, driven by explicit fuel: run one pass;
if depth == traceDepth or num_paths == 0, reset num_paths to pixelcount
and stop, otherwise continue.  Returns none only if the fuel runs out. -/
def loopRun (E : Env) (geoms triangles : List Geom)
    (materials : List Material) (iter : ℕ) (matSort : Bool)
    (traceDepth pixelcount : ℕ) : ℕ → LoopState → Option LoopState
  | 0, _ => none
  | fuel + 1, s =>
    let s1 := loopStep E geoms triangles materials iter matSort s
    if loopExit traceDepth s1 then
      some { s1 with numPaths := pixelcount }
    else
      loopRun E geoms triangles materials iter matSort traceDepth pixelcount
        fuel s1

/-- The finalGather kernel: every slot below nPaths adds its path color
into image[pixelIndex]. -/
def finalGatherImage (image : ℕ → Vec3) (paths : List PathSegment) :
    ℕ → Vec3 :=
  paths.foldl
    (fun im p => fun q =>
      if q = p.pixelIndex then Vec3.add (im q) p.color else im q)
    image

/-- The per-iteration entry point pathtrace (with CACHEBOUNCE and DOF
off, as compiled): generate one path per pixel, run the bounce loop with
fuel traceDepth + 1 (enough for every exit, as proved below), and gather
the first num_paths (= pixelcount after the loop-exit reset) paths into
the image. -/
def pathtrace (E : Env) (geoms triangles : List Geom)
    (materials : List Material) (cam : Camera) (traceDepth iter : ℕ)
    (matSort : Bool) (image : ℕ → Vec3) :
    Option ((ℕ → Vec3) × LoopState) :=
  let pixelcount := cam.resolutionX * cam.resolutionY
  let paths0 := generateRays E cam iter traceDepth
  match loopRun E geoms triangles materials iter matSort traceDepth
      pixelcount (traceDepth + 1)
      { paths := paths0, numPaths := pixelcount, depth := 0 } with
  | none => none
  | some sf => some (finalGatherImage image (sf.paths.take sf.numPaths), sf)

/-- Sum of a list of vectors, used to characterize finalGather. -/
def vsum : List Vec3 → Vec3
  | [] => Vec3.zero
  | v :: rest => Vec3.add v (vsum rest)

/-- The pixelIndex trace of a path buffer. -/
def pixList (l : List PathSegment) : List ℕ :=
  l.map (fun p => p.pixelIndex)

/-- The multiset of (pixelIndex, color) observations of the terminated
paths of a buffer: what the Accumulator will see of them. -/
def termView (l : List PathSegment) : Multiset (ℕ × Vec3) :=
  ((l.filter (fun p => !has_no_bounces p)).map
    (fun p => (p.pixelIndex, p.color)) : List (ℕ × Vec3))

/-- A path paired with a ghost counter of the shadeMaterial writes it has
received.  The shadeMaterial kernel writes a path exactly when its
remainingBounces is positive on entry. -/
def shadeListG (E : Env) (materials : List Material) (iter depth : ℕ) :
    ℕ → List (ShadeableIntersection × (PathSegment × ℕ)) →
      List (PathSegment × ℕ)
  | _, [] => []
  | idx, ip :: rest =>
    (shadeOne E materials iter depth idx ip.1 ip.2.1,
      if ip.2.1.remainingBounces > 0 then ip.2.2 + 1 else ip.2.2) ::
      shadeListG E materials iter depth (idx + 1) rest

/-- The material-sort stage on counted paths (same key as sortStage). -/
def sortStageG (pairs : List (ShadeableIntersection × (PathSegment × ℕ))) :
    List (ShadeableIntersection × (PathSegment × ℕ)) :=
  pairs.insertionSort (fun a b => a.1.materialId ≤ b.1.materialId)

/-- Loop state carrying the ghost write counters. -/
structure LoopStateG where
  paths : List (PathSegment × ℕ)
  numPaths : ℕ
  depth : ℕ

/-- One pass of the while loop on counted paths; identical to loopStep on
the PathSegment component. -/
def loopStepG (E : Env) (geoms triangles : List Geom)
    (materials : List Material) (iter : ℕ) (matSort : Bool)
    (s : LoopStateG) : LoopStateG :=
  let act := s.paths.take s.numPaths
  let tl := s.paths.drop s.numPaths
  let pairs := act.map (fun pc =>
    let r := computeIntersectionsOne E geoms triangles pc.1
    (r.1, (r.2, pc.2)))
  let pairs2 := if matSort then sortStageG pairs else pairs
  let shaded := shadeListG E materials iter (s.depth + 1) 0 pairs2
  let parts := shaded.partition (fun pc => has_no_bounces pc.1)
  { paths := parts.1 ++ parts.2 ++ tl,
    numPaths := parts.1.length,
    depth := s.depth + 1 }

/-- Erasing the ghost counters. -/
def eraseG (s : LoopStateG) : LoopState :=
  { paths := s.paths.map (fun pc => pc.1),
    numPaths := s.numPaths,
    depth := s.depth }

/-- The while loop on counted paths. -/
def loopRunG (E : Env) (geoms triangles : List Geom)
    (materials : List Material) (iter : ℕ) (matSort : Bool)
    (traceDepth pixelcount : ℕ) : ℕ → LoopStateG → Option LoopStateG
  | 0, _ => none
  | fuel + 1, s =>
    let s1 := loopStepG E geoms triangles materials iter matSort s
    if s1.depth = traceDepth ∨ s1.numPaths = 0 then
      some { s1 with numPaths := pixelcount }
    else
      loopRunG E geoms triangles materials iter matSort traceDepth
        pixelcount fuel s1

/-- A concrete environment used to instantiate the quantified theorems:
identity hash, identity normalize, every primitive test missing. -/
def trivEnv : Env :=
  { utilhash := fun n => n,
    normalizeV := fun v => v,
    boxTest := fun _ _ => ⟨-1, Vec3.zero, Vec3.zero⟩,
    sphereTest := fun _ _ => ⟨-1, Vec3.zero, Vec3.zero⟩,
    triTest := fun _ _ => ⟨-1, Vec3.zero, Vec3.zero⟩,
    bvGate := fun _ _ => false,
    sampleDir := fun n _ => n }

/-- A 1 x 1 camera for witnesses. -/
def unitCam : Camera :=
  { resolutionX := 1, resolutionY := 1, position := Vec3.zero,
    view := ⟨0, 0, 1⟩, up := ⟨0, 1, 0⟩, right := ⟨1, 0, 0⟩,
    pixelLengthX := 1, pixelLengthY := 1 }

/-- The all-black starting image. -/
def blackImage : ℕ → Vec3 := fun _ => Vec3.zero

/-- Camera of the material-sort counterexample: one column of two
pixels, so slot 0 holds pixel (0,0) and slot 1 holds pixel (0,1).
The ray of pixel (0,0) has direction.y = 1 - yJitter > 1/2 and the ray
of pixel (0,1) has direction.y = -yJitter <= 1/2, which lets the sphere
test below tell the two rays apart. -/
def cexCam : Camera :=
  { resolutionX := 1, resolutionY := 2, position := Vec3.zero,
    view := ⟨0, 0, 1⟩, up := ⟨0, 1, 0⟩, right := ⟨1, 0, 0⟩,
    pixelLengthX := 1, pixelLengthY := 1 }

/-- Environment of the material-sort counterexample: the sphere test
hits at distance 1 exactly when the tested geometry's material matches
the ray (material 1 for the top-pixel ray, material 0 for the bottom
one), every other test misses. -/
def cexEnv : Env :=
  { trivEnv with
    sphereTest := fun g r =>
      if g.materialid = 1 then
        if r.direction.y > 1 / 2 then ⟨1, Vec3.zero, ⟨0, 1, 0⟩⟩
        else ⟨-1, Vec3.zero, Vec3.zero⟩
      else
        if r.direction.y > 1 / 2 then ⟨-1, Vec3.zero, Vec3.zero⟩
        else ⟨1, Vec3.zero, ⟨0, 1, 0⟩⟩ }

/-- Scene of the counterexample: two spheres with materials 0 and 1, so
the slot-order material keys are [1, 0] and the sort swaps the slots. -/
def cexGeoms : List Geom :=
  [⟨GType.SPHERE, 0⟩, ⟨GType.SPHERE, 1⟩]

/-- Two identical white non-emissive materials: both paths take the
scatter branch, whose sample depends on the array slot. -/
def cexMats : List Material :=
  [⟨Vec3.ones, 0⟩, ⟨Vec3.ones, 0⟩]

/-- The shaded active list produced inside one loopStep pass: the active
prefix after computeIntersections, the optional material sort, and
shadeMaterial. -/
def stepShaded (E : Env) (geoms triangles : List Geom)
    (materials : List Material) (iter : ℕ) (matSort : Bool)
    (s : LoopState) : List PathSegment :=
  shadeList E materials iter (s.depth + 1) 0
    (if matSort then
      sortStage ((s.paths.take s.numPaths).map
        (fun p => computeIntersectionsOne E geoms triangles p))
    else
      (s.paths.take s.numPaths).map
        (fun p => computeIntersectionsOne E geoms triangles p))

/-- Ghost analogue of stepShaded. -/
def stepShadedG (E : Env) (geoms triangles : List Geom)
    (materials : List Material) (iter : ℕ) (matSort : Bool)
    (s : LoopStateG) : List (PathSegment × ℕ) :=
  shadeListG E materials iter (s.depth + 1) 0
    (if matSort then
      sortStageG ((s.paths.take s.numPaths).map (fun pc =>
        ((computeIntersectionsOne E geoms triangles pc.1).1,
          ((computeIntersectionsOne E geoms triangles pc.1).2, pc.2))))
    else
      (s.paths.take s.numPaths).map (fun pc =>
        ((computeIntersectionsOne E geoms triangles pc.1).1,
          ((computeIntersectionsOne E geoms triangles pc.1).2, pc.2))))

/-- The result of a tiny concrete pathtrace run (1 x 1 image, empty
scene, one bounce), used to instantiate quantified theorems. -/
def c1wit_r : (ℕ → Vec3) × LoopState :=
  (pathtrace trivEnv [] [] [] unitCam 1 1 false blackImage).getD
    (blackImage, { paths := [], numPaths := 0, depth := 0 })

/-- One emissive material (emittance 5), for shader witnesses. -/
def matsEm : List Material := [⟨Vec3.ones, 5⟩]

/-- One non-emissive material, for shader witnesses. -/
def matsDiff : List Material := [⟨Vec3.ones, 0⟩]

/-- A hit intersection record, for shader witnesses. -/
def hitIsect : ShadeableIntersection := ⟨1, 0, Vec3.zero⟩

/-- A miss intersection record, for shader witnesses. -/
def missIsect : ShadeableIntersection := ⟨-1, 0, Vec3.zero⟩

/-- A live path with two remaining bounces, for shader witnesses. -/
def cpath : PathSegment :=
  { ray := ⟨Vec3.zero, ⟨0, 0, 1⟩, ⟨2, 2, 2⟩⟩, color := Vec3.ones,
    pixelIndex := 7, remainingBounces := 2 }

/-- A terminated path, for shader witnesses. -/
def cpath0 : PathSegment :=
  { ray := ⟨Vec3.zero, ⟨0, 0, 1⟩, ⟨2, 2, 2⟩⟩, color := ⟨3, 4, 5⟩,
    pixelIndex := 9, remainingBounces := 0 }

/-- A ray for intersection witnesses. -/
def wray : RayT := ⟨Vec3.zero, ⟨0, 0, 1⟩, Vec3.zero⟩

/-- An environment whose primitive tests all hit at fixed distances
(boxes at 2, spheres at 3, triangles at 1) with open bounding gates. -/
def hitEnv : Env :=
  { trivEnv with
    boxTest := fun _ _ => ⟨2, ⟨1, 0, 0⟩, ⟨0, 1, 0⟩⟩,
    sphereTest := fun _ _ => ⟨3, ⟨0, 1, 0⟩, ⟨1, 0, 0⟩⟩,
    triTest := fun _ _ => ⟨1, ⟨0, 0, 1⟩, ⟨0, 0, 1⟩⟩,
    bvGate := fun _ _ => true }

/-- An intersection-loop state whose record already belongs to the
triangle collection (hitmesh set). -/
def wsMesh : IsectState :=
  { t := 5, t_min := 3, hit_geom_index := 7, hitmesh := true,
    intersect_point := ⟨1, 1, 1⟩, normal := ⟨0, 1, 0⟩,
    tmp_intersect := Vec3.zero, tmp_normal := Vec3.zero,
    rayIntersect := ⟨1, 1, 1⟩ }

/-- An intersection-loop state with a pending positive candidate t. -/
def wsCand : IsectState := { isectInit wray with t := 1 }

/-- A mid-loop state holding one already-terminated path, for the
terminated-path-preservation witness. -/
def c10s0 : LoopState := { paths := [cpath0], numPaths := 1, depth := 0 }

/-- The final state of the bounce loop started from c10s0. -/
def c10sf : LoopState :=
  (loopRun trivEnv [] [] [] 1 false 3 1 1 c10s0).getD
    { paths := [], numPaths := 0, depth := 0 }

/-- A one-path ghost loop state with a zero write counter. -/
def c6g0 : LoopStateG :=
  { paths := [(generateRayForPixel trivEnv unitCam 1 1 0 0, 0)],
    numPaths := 1, depth := 0 }

/-- The final ghost state of the bounce loop started from c6g0. -/
def c6gf : LoopStateG :=
  (loopRunG trivEnv [] [] [] 1 false 1 1 2 c6g0).getD
    { paths := [], numPaths := 0, depth := 0 }

theorem Vec3.add_zero_right (a : Vec3) : Vec3.add a Vec3.zero = a := by
  cases a; simp [Vec3.add, Vec3.zero]

theorem Vec3.add_assoc3 (a b c : Vec3) :
    Vec3.add (Vec3.add a b) c = Vec3.add a (Vec3.add b c) := by
  cases a; cases b; cases c
  simp only [Vec3.add, Vec3.mk.injEq]
  refine ⟨by ring, by ring, by ring⟩

theorem Vec3.nonneg_zero : Vec3.zero.Nonneg := by decide

theorem Vec3.nonneg_ones : Vec3.ones.Nonneg := by decide

theorem Vec3.nonneg_mul {a b : Vec3} (ha : a.Nonneg) (hb : b.Nonneg) :
    (Vec3.mul a b).Nonneg := by
  obtain ⟨h1, h2, h3⟩ := ha; obtain ⟨g1, g2, g3⟩ := hb
  exact ⟨mul_nonneg h1 g1, mul_nonneg h2 g2, mul_nonneg h3 g3⟩

theorem Vec3.nonneg_scale {q : ℚ} {a : Vec3} (hq : 0 ≤ q) (ha : a.Nonneg) :
    (Vec3.scale q a).Nonneg := by
  obtain ⟨h1, h2, h3⟩ := ha
  exact ⟨mul_nonneg hq h1, mul_nonneg hq h2, mul_nonneg hq h3⟩

theorem engNext_lt (s : ℕ) : engNext s < lcgM :=
  Nat.mod_lt _ (by decide)

theorem draw01_nonneg (s : ℕ) : 0 ≤ (draw01 s).1 := by
  unfold draw01
  exact div_nonneg (Nat.cast_nonneg _) (Nat.cast_nonneg _)

theorem draw01_lt_one (s : ℕ) : (draw01 s).1 < 1 := by
  unfold draw01
  have h := engNext_lt s
  rw [div_lt_one (by norm_num [lcgM])]
  have h2 : engNext s - 1 ≤ 2147483645 := by
    have : lcgM = 2147483647 := rfl
    omega
  have h3 : ((engNext s - 1 : ℕ) : ℚ) ≤ 2147483645 := by exact_mod_cast h2
  have h4 : ((lcgM - 1 : ℕ) : ℚ) = 2147483646 := by norm_num [lcgM]
  rw [h4]
  linarith

theorem shadeOne_pixelIndex (E : Env) (materials : List Material)
    (iter depth idx : ℕ) (isect : ShadeableIntersection)
    (path : PathSegment) :
    (shadeOne E materials iter depth idx isect path).pixelIndex =
      path.pixelIndex := by
  simp only [shadeOne, scatterRay]
  split_ifs <;> rfl

theorem shadeOne_rb_le (E : Env) (materials : List Material)
    (iter depth idx : ℕ) (isect : ShadeableIntersection)
    (path : PathSegment) :
    (shadeOne E materials iter depth idx isect path).remainingBounces ≤
      path.remainingBounces := by
  simp only [shadeOne, scatterRay]
  split_ifs with h1 h2 h3 <;> first | omega | (dsimp only; omega)

theorem shadeOne_untouched (E : Env) (materials : List Material)
    (iter depth idx : ℕ) (isect : ShadeableIntersection)
    (path : PathSegment) (h : path.remainingBounces ≤ 0) :
    shadeOne E materials iter depth idx isect path = path := by
  simp only [shadeOne, scatterRay]
  rw [if_neg, if_neg]
  · omega
  · rintro ⟨-, h2⟩
    omega

theorem shadeOne_rb_nonneg (E : Env) (materials : List Material)
    (iter depth idx : ℕ) (isect : ShadeableIntersection)
    (path : PathSegment) (h : 0 ≤ path.remainingBounces) :
    0 ≤ (shadeOne E materials iter depth idx isect path).remainingBounces := by
  simp only [shadeOne, scatterRay]
  split_ifs with h1 h2 h3 <;> first | omega | (dsimp only; omega)

theorem shadeOne_write_rb_lt (E : Env) (materials : List Material)
    (iter depth idx : ℕ) (isect : ShadeableIntersection)
    (path : PathSegment) (h : 0 < path.remainingBounces) :
    (shadeOne E materials iter depth idx isect path).remainingBounces <
      path.remainingBounces := by
  simp only [shadeOne, scatterRay]
  split_ifs with h1 h2 <;> first | omega | (dsimp only; omega)

theorem getD_material_nonneg {materials : List Material}
    (h : ∀ m ∈ materials, m.color.Nonneg ∧ 0 ≤ m.emittance) (i : ℕ) :
    (materials.getD i default).color.Nonneg ∧
      0 ≤ (materials.getD i default).emittance := by
  by_cases hi : i < materials.length
  · rw [List.getD_eq_getElem _ _ hi]
    exact h _ (List.getElem_mem hi)
  · rw [List.getD_eq_default _ _ (le_of_not_lt hi)]
    exact ⟨Vec3.nonneg_zero, le_refl _⟩

theorem shadeOne_color_nonneg (E : Env) (materials : List Material)
    (iter depth idx : ℕ) (isect : ShadeableIntersection)
    (path : PathSegment)
    (hm : ∀ m ∈ materials, m.color.Nonneg ∧ 0 ≤ m.emittance)
    (hp : path.color.Nonneg) :
    (shadeOne E materials iter depth idx isect path).color.Nonneg := by
  have hmat := getD_material_nonneg hm isect.materialId
  simp only [shadeOne, scatterRay]
  split_ifs with h1 h2
  · exact Vec3.nonneg_mul hp (Vec3.nonneg_scale hmat.2 hmat.1)
  · exact Vec3.nonneg_mul hp
      (Vec3.nonneg_scale (draw01_nonneg _) hmat.1)
  · exact Vec3.nonneg_zero
  · exact hp

theorem shadeOne_emissive (E : Env) (materials : List Material)
    (iter depth idx : ℕ) (isect : ShadeableIntersection)
    (path : PathSegment) (h1 : isect.t > 0)
    (h2 : path.remainingBounces > 0)
    (h3 : (materials.getD isect.materialId default).emittance > 0) :
    shadeOne E materials iter depth idx isect path =
      { path with
        color := Vec3.mul path.color
          (Vec3.scale (materials.getD isect.materialId default).emittance
            (materials.getD isect.materialId default).color),
        remainingBounces := 0 } := by
  simp only [shadeOne]
  rw [if_pos ⟨h1, h2⟩, if_pos h3]

theorem shadeOne_scatter (E : Env) (materials : List Material)
    (iter depth idx : ℕ) (isect : ShadeableIntersection)
    (path : PathSegment) (h1 : isect.t > 0)
    (h2 : path.remainingBounces > 0)
    (h3 : (materials.getD isect.materialId default).emittance ≤ 0) :
    shadeOne E materials iter depth idx isect path =
      { scatterRay E path path.ray.intersect isect.surfaceNormal
          (materials.getD isect.materialId default)
          (draw01 (makeSeededRandomEngine E iter idx depth)).1 with
        remainingBounces := path.remainingBounces - 1 } := by
  simp only [shadeOne, scatterRay]
  rw [if_pos ⟨h1, h2⟩, if_neg (not_lt.mpr h3)]

theorem shadeOne_miss (E : Env) (materials : List Material)
    (iter depth idx : ℕ) (isect : ShadeableIntersection)
    (path : PathSegment) (h1 : isect.t ≤ 0)
    (h2 : path.remainingBounces > 0) :
    shadeOne E materials iter depth idx isect path =
      { path with color := Vec3.zero, remainingBounces := 0 } := by
  simp only [shadeOne]
  rw [if_neg, if_pos h2]
  rintro ⟨hc, -⟩
  exact absurd hc (not_lt.mpr h1)

theorem isectOne_snd_fields (E : Env) (geoms triangles : List Geom)
    (path : PathSegment) :
    (computeIntersectionsOne E geoms triangles path).2.pixelIndex =
        path.pixelIndex ∧
      (computeIntersectionsOne E geoms triangles path).2.color = path.color ∧
      (computeIntersectionsOne E geoms triangles path).2.remainingBounces =
        path.remainingBounces :=
  ⟨rfl, rfl, rfl⟩

theorem shadeList_length (E : Env) (materials : List Material)
    (iter depth : ℕ) :
    ∀ (idx : ℕ) (pairs : List (ShadeableIntersection × PathSegment)),
      (shadeList E materials iter depth idx pairs).length = pairs.length := by
  intro idx pairs
  induction pairs generalizing idx with
  | nil => rfl
  | cons ip rest ih => simp [shadeList, ih]

theorem shadeList_map_pix (E : Env) (materials : List Material)
    (iter depth : ℕ) :
    ∀ (idx : ℕ) (pairs : List (ShadeableIntersection × PathSegment)),
      (shadeList E materials iter depth idx pairs).map
          (fun p => p.pixelIndex) =
        pairs.map (fun ip => ip.2.pixelIndex) := by
  intro idx pairs
  induction pairs generalizing idx with
  | nil => rfl
  | cons ip rest ih =>
    simp [shadeList, ih, shadeOne_pixelIndex]

theorem shadeList_mem (E : Env) (materials : List Material)
    (iter depth : ℕ) {x : PathSegment} :
    ∀ {idx : ℕ} {pairs : List (ShadeableIntersection × PathSegment)},
      x ∈ shadeList E materials iter depth idx pairs →
      ∃ j ip, ip ∈ pairs ∧ x = shadeOne E materials iter depth j ip.1 ip.2 := by
  intro idx pairs
  induction pairs generalizing idx with
  | nil => intro h; cases h
  | cons ip rest ih =>
    intro h
    rcases List.mem_cons.mp h with h1 | h2
    · exact ⟨idx, ip, List.mem_cons_self _ _, h1⟩
    · obtain ⟨j, ip2, hmem, heq⟩ := ih h2
      exact ⟨j, ip2, List.mem_cons_of_mem _ hmem, heq⟩

theorem termView_cons (p : PathSegment) (l : List PathSegment) :
    termView (p :: l) =
      if has_no_bounces p then termView l
      else (p.pixelIndex, p.color) ::ₘ termView l := by
  unfold termView
  by_cases h : has_no_bounces p <;> simp [List.filter_cons, h]

theorem termView_le_cons (p : PathSegment) (l : List PathSegment) :
    termView l ≤ termView (p :: l) := by
  rw [termView_cons]
  split
  · exact le_refl _
  · exact Multiset.le_cons_self _ _

theorem termView_append (l1 l2 : List PathSegment) :
    termView (l1 ++ l2) = termView l1 + termView l2 := by
  unfold termView
  rw [List.filter_append, List.map_append]
  exact (Multiset.coe_add _ _).symm

theorem termView_perm {l1 l2 : List PathSegment} (h : l1.Perm l2) :
    termView l1 = termView l2 := by
  unfold termView
  exact Multiset.coe_eq_coe.mpr ((h.filter _).map _)

theorem termView_map_pres (f : PathSegment → PathSegment)
    (hf : ∀ p, (f p).pixelIndex = p.pixelIndex ∧ (f p).color = p.color ∧
      (f p).remainingBounces = p.remainingBounces) :
    ∀ l : List PathSegment, termView (l.map f) = termView l := by
  intro l
  induction l with
  | nil => rfl
  | cons p rest ih =>
    rw [List.map_cons, termView_cons, termView_cons, ih,
      (hf p).1, (hf p).2.1]
    have hb : has_no_bounces (f p) = has_no_bounces p := by
      unfold has_no_bounces
      rw [(hf p).2.2]
    rw [hb]

theorem termView_shadeList (E : Env) (materials : List Material)
    (iter depth : ℕ) :
    ∀ (idx : ℕ) (pairs : List (ShadeableIntersection × PathSegment)),
      termView (pairs.map (fun ip => ip.2)) ≤
        termView (shadeList E materials iter depth idx pairs) := by
  intro idx pairs
  induction pairs generalizing idx with
  | nil => exact le_refl _
  | cons ip rest ih =>
    rw [List.map_cons]
    show termView (ip.2 :: _) ≤ termView (_ :: _)
    by_cases hb : has_no_bounces ip.2
    · rw [termView_cons, if_pos hb]
      exact le_trans (ih (idx + 1)) (termView_le_cons _ _)
    · have hrb : ip.2.remainingBounces ≤ 0 := by
        unfold has_no_bounces at hb
        simpa using hb
      have huntouched := shadeOne_untouched E materials iter depth idx
        ip.1 ip.2 hrb
      rw [termView_cons, if_neg hb]
      show _ ≤ termView (shadeOne E materials iter depth idx ip.1 ip.2 :: _)
      rw [huntouched, termView_cons, if_neg hb]
      exact Multiset.cons_le_cons _ (ih (idx + 1))

theorem sortStage_perm (pairs : List (ShadeableIntersection × PathSegment)) :
    (sortStage pairs).Perm pairs :=
  List.perm_insertionSort _ _

theorem loopStep_eq (E : Env) (geoms triangles : List Geom)
    (materials : List Material) (iter : ℕ) (matSort : Bool)
    (s : LoopState) :
    loopStep E geoms triangles materials iter matSort s =
      { paths :=
          (stepShaded E geoms triangles materials iter matSort s).filter
              has_no_bounces ++
            (stepShaded E geoms triangles materials iter matSort s).filter
              (fun p => !has_no_bounces p) ++
            s.paths.drop s.numPaths,
        numPaths :=
          ((stepShaded E geoms triangles materials iter matSort s).filter
            has_no_bounces).length,
        depth := s.depth + 1 } := by
  unfold loopStep stepShaded
  simp only [List.partition_eq_filter_filter]
  rfl

theorem stepShaded_map_pix (E : Env) (geoms triangles : List Geom)
    (materials : List Material) (iter : ℕ) (matSort : Bool)
    (s : LoopState) :
    ((stepShaded E geoms triangles materials iter matSort s).map
        (fun p => p.pixelIndex)).Perm
      ((s.paths.take s.numPaths).map (fun p => p.pixelIndex)) := by
  unfold stepShaded
  rw [shadeList_map_pix]
  have key : ((s.paths.take s.numPaths).map
        (fun p => computeIntersectionsOne E geoms triangles p)).map
        (fun ip => ip.2.pixelIndex) =
      (s.paths.take s.numPaths).map (fun p => p.pixelIndex) := by
    rw [List.map_map]
    exact List.map_congr_left
      (fun p _ => (isectOne_snd_fields E geoms triangles p).1)
  by_cases hms : matSort
  · rw [if_pos hms]
    exact ((sortStage_perm _).map _).trans (key ▸ List.Perm.refl _)
  · rw [if_neg hms, key]

theorem loopStep_pix_perm (E : Env) (geoms triangles : List Geom)
    (materials : List Material) (iter : ℕ) (matSort : Bool)
    (s : LoopState) :
    (pixList (loopStep E geoms triangles materials iter matSort s).paths).Perm
      (pixList s.paths) := by
  rw [loopStep_eq]
  unfold pixList
  have h1 : (((stepShaded E geoms triangles materials iter matSort s).filter
        has_no_bounces ++
        (stepShaded E geoms triangles materials iter matSort s).filter
          (fun p => !has_no_bounces p)) ++
        s.paths.drop s.numPaths).Perm
      (stepShaded E geoms triangles materials iter matSort s ++
        s.paths.drop s.numPaths) :=
    (List.filter_append_perm _ _).append_right _
  refine (h1.map _).trans ?_
  rw [List.map_append]
  refine (List.Perm.append_right _
    (stepShaded_map_pix E geoms triangles materials iter matSort s)).trans ?_
  rw [← List.map_append, List.take_append_drop]

theorem loopStep_len (E : Env) (geoms triangles : List Geom)
    (materials : List Material) (iter : ℕ) (matSort : Bool)
    (s : LoopState) :
    (loopStep E geoms triangles materials iter matSort s).paths.length =
      s.paths.length := by
  have h := (loopStep_pix_perm E geoms triangles materials iter matSort
    s).length_eq
  unfold pixList at h
  simpa using h

theorem loopStep_numPaths_le (E : Env) (geoms triangles : List Geom)
    (materials : List Material) (iter : ℕ) (matSort : Bool)
    (s : LoopState) :
    (loopStep E geoms triangles materials iter matSort s).numPaths ≤
      (loopStep E geoms triangles materials iter matSort s).paths.length := by
  rw [loopStep_eq]
  simp only [List.length_append]
  omega

theorem loopStep_termView (E : Env) (geoms triangles : List Geom)
    (materials : List Material) (iter : ℕ) (matSort : Bool)
    (s : LoopState) :
    termView s.paths ≤
      termView (loopStep E geoms triangles materials iter matSort s).paths := by
  have hact : termView (s.paths.take s.numPaths) ≤
      termView (stepShaded E geoms triangles materials iter matSort s) := by
    unfold stepShaded
    have key : termView (((s.paths.take s.numPaths).map
          (fun p => computeIntersectionsOne E geoms triangles p)).map
          (fun ip => ip.2)) =
        termView (s.paths.take s.numPaths) := by
      rw [List.map_map]
      exact termView_map_pres _
        (fun p => isectOne_snd_fields E geoms triangles p) _
    by_cases hms : matSort
    · rw [if_pos hms]
      refine le_trans (le_of_eq ?_) (termView_shadeList E materials iter
        (s.depth + 1) 0 _)
      rw [← key]
      exact (termView_perm ((sortStage_perm _).map _)).symm
    · rw [if_neg hms]
      exact le_trans (le_of_eq key.symm)
        (termView_shadeList E materials iter (s.depth + 1) 0 _)
  calc termView s.paths
      = termView (s.paths.take s.numPaths) +
          termView (s.paths.drop s.numPaths) := by
        rw [← termView_append, List.take_append_drop]
    _ ≤ termView (stepShaded E geoms triangles materials iter matSort s) +
          termView (s.paths.drop s.numPaths) := by
        exact add_le_add_right hact _
    _ = termView (loopStep E geoms triangles materials iter matSort
          s).paths := by
        rw [loopStep_eq]
        rw [← termView_append]
        refine (termView_perm ?_).symm
        exact (List.filter_append_perm _ _).append_right _

theorem stepShaded_mem (E : Env) (geoms triangles : List Geom)
    (materials : List Material) (iter : ℕ) (matSort : Bool)
    (s : LoopState) (P : PathSegment → Prop)
    (hIs : ∀ p, P p → P (computeIntersectionsOne E geoms triangles p).2)
    (hSh : ∀ d idx isect p, P p → P (shadeOne E materials iter d idx isect p))
    (hAll : ∀ p ∈ s.paths, P p) :
    ∀ x ∈ stepShaded E geoms triangles materials iter matSort s, P x := by
  intro x hx
  unfold stepShaded at hx
  obtain ⟨j, ip, hmem, heq⟩ := shadeList_mem E materials iter
    (s.depth + 1) hx
  have hip : ip ∈ (s.paths.take s.numPaths).map
      (fun p => computeIntersectionsOne E geoms triangles p) := by
    by_cases hms : matSort
    · rw [if_pos hms] at hmem
      exact (sortStage_perm _).mem_iff.mp hmem
    · rwa [if_neg hms] at hmem
  obtain ⟨p, hpmem, hpeq⟩ := List.mem_map.mp hip
  have hPp : P p := hAll p (List.take_subset _ _ hpmem)
  have hP2 : P ip.2 := by
    rw [← hpeq]
    exact hIs p hPp
  rw [heq]
  exact hSh _ _ _ _ hP2

theorem loopStep_mem (E : Env) (geoms triangles : List Geom)
    (materials : List Material) (iter : ℕ) (matSort : Bool)
    (s : LoopState) (P : PathSegment → Prop)
    (hIs : ∀ p, P p → P (computeIntersectionsOne E geoms triangles p).2)
    (hSh : ∀ d idx isect p, P p → P (shadeOne E materials iter d idx isect p))
    (hAll : ∀ p ∈ s.paths, P p) :
    ∀ q ∈ (loopStep E geoms triangles materials iter matSort s).paths,
      P q := by
  intro q hq
  rw [loopStep_eq] at hq
  have hsh := stepShaded_mem E geoms triangles materials iter matSort s P
    hIs hSh hAll
  rcases List.mem_append.mp hq with hq1 | htl
  · rcases List.mem_append.mp hq1 with hf1 | hf2
    · exact hsh q (List.mem_of_mem_filter hf1)
    · exact hsh q (List.mem_of_mem_filter hf2)
  · exact hAll q (List.drop_subset _ _ htl)

theorem loopStep_depth (E : Env) (geoms triangles : List Geom)
    (materials : List Material) (iter : ℕ) (matSort : Bool)
    (s : LoopState) :
    (loopStep E geoms triangles materials iter matSort s).depth =
      s.depth + 1 :=
  rfl

theorem loopStep_numPaths_zero (E : Env) (geoms triangles : List Geom)
    (materials : List Material) (iter : ℕ) (matSort : Bool)
    (s : LoopState) (h : ∀ p ∈ s.paths, p.remainingBounces ≤ 0) :
    (loopStep E geoms triangles materials iter matSort s).numPaths = 0 := by
  rw [loopStep_eq]
  rw [List.length_eq_zero, List.filter_eq_nil_iff]
  intro a ha
  have hrb : a.remainingBounces ≤ 0 := by
    refine stepShaded_mem E geoms triangles materials iter matSort s
      (fun p => p.remainingBounces ≤ 0) ?_ ?_ h a ha
    · intro p hp
      rw [(isectOne_snd_fields E geoms triangles p).2.2]
      exact hp
    · intro d idx isect p hp
      rw [shadeOne_untouched E materials iter d idx isect p hp]
      exact hp
  unfold has_no_bounces
  simpa using hrb

theorem loopRun_numPaths (E : Env) (geoms triangles : List Geom)
    (materials : List Material) (iter : ℕ) (matSort : Bool)
    (traceDepth pixelcount : ℕ) :
    ∀ (fuel : ℕ) (s sf : LoopState),
      loopRun E geoms triangles materials iter matSort traceDepth pixelcount
          fuel s = some sf →
      sf.numPaths = pixelcount := by
  intro fuel
  induction fuel with
  | zero => intro s sf h; simp [loopRun] at h
  | succ n ih =>
    intro s sf h
    simp only [loopRun] at h
    split at h
    · injection h with h2
      rw [← h2]
    · exact ih _ _ h

theorem loopRun_chain (E : Env) (geoms triangles : List Geom)
    (materials : List Material) (iter : ℕ) (matSort : Bool)
    (traceDepth pixelcount : ℕ)
    (R : List PathSegment → List PathSegment → Prop)
    (htrans : ∀ a b c, R a b → R b c → R a c)
    (hstep : ∀ s : LoopState,
      R s.paths (loopStep E geoms triangles materials iter matSort s).paths) :
    ∀ (fuel : ℕ) (s sf : LoopState),
      loopRun E geoms triangles materials iter matSort traceDepth pixelcount
          fuel s = some sf →
      R s.paths sf.paths := by
  intro fuel
  induction fuel with
  | zero => intro s sf h; simp [loopRun] at h
  | succ n ih =>
    intro s sf h
    simp only [loopRun] at h
    split at h
    · injection h with h2
      rw [← h2]
      exact hstep s
    · exact htrans _ _ _ (hstep s) (ih _ _ h)

theorem loopRun_spec (E : Env) (geoms triangles : List Geom)
    (materials : List Material) (iter : ℕ) (matSort : Bool)
    (traceDepth pixelcount : ℕ) :
    ∀ (fuel : ℕ) (s sf : LoopState),
      loopRun E geoms triangles materials iter matSort traceDepth pixelcount
          fuel s = some sf →
      ∃ k, 1 ≤ k ∧ k ≤ fuel ∧
        loopExit traceDepth
          ((loopStep E geoms triangles materials iter matSort)^[k] s) =
            true ∧
        (∀ j, 1 ≤ j → j < k →
          loopExit traceDepth
            ((loopStep E geoms triangles materials iter matSort)^[j] s) =
              false) ∧
        sf = { (loopStep E geoms triangles materials iter matSort)^[k] s with
          numPaths := pixelcount } := by
  intro fuel
  induction fuel with
  | zero => intro s sf h; simp [loopRun] at h
  | succ n ih =>
    intro s sf h
    simp only [loopRun] at h
    split at h
    · rename_i hex
      refine ⟨1, le_refl _, by omega, ?_, ?_, ?_⟩
      · rw [Function.iterate_one]
        exact hex
      · intro j hj1 hjk
        omega
      · injection h with h2
        rw [← h2, Function.iterate_one]
    · rename_i hex
      obtain ⟨k, hk1, hkn, hexit, hnoexit, hsf⟩ := ih _ _ h
      refine ⟨k + 1, by omega, by omega, ?_, ?_, ?_⟩
      · rw [Function.iterate_succ_apply]
        exact hexit
      · intro j hj1 hjk
        obtain ⟨j2, rfl⟩ : ∃ j2, j = j2 + 1 := ⟨j - 1, by omega⟩
        rw [Function.iterate_succ_apply]
        rcases Nat.eq_zero_or_pos j2 with hz | hpos
        · subst hz
          rw [Function.iterate_zero_apply]
          exact Bool.not_eq_true _ |>.mp hex
        · exact hnoexit j2 hpos (by omega)
      · rw [Function.iterate_succ_apply]
        exact hsf

theorem loopRun_progress (E : Env) (geoms triangles : List Geom)
    (materials : List Material) (iter : ℕ) (matSort : Bool)
    (traceDepth pixelcount : ℕ) :
    ∀ (fuel : ℕ) (s : LoopState), s.depth < traceDepth →
      traceDepth ≤ s.depth + fuel →
      ∃ sf, loopRun E geoms triangles materials iter matSort traceDepth
        pixelcount fuel s = some sf := by
  intro fuel
  induction fuel with
  | zero => intro s h1 h2; omega
  | succ n ih =>
    intro s h1 h2
    simp only [loopRun]
    split
    · exact ⟨_, rfl⟩
    · rename_i hex
      have hd : (loopStep E geoms triangles materials iter matSort s).depth =
          s.depth + 1 := rfl
      have hne : ¬((loopStep E geoms triangles materials iter matSort
          s).depth = traceDepth ∨
          (loopStep E geoms triangles materials iter matSort s).numPaths =
            0) := by
        intro hcon
        apply hex
        unfold loopExit
        exact decide_eq_true hcon
      push_neg at hne
      exact ih _ (by omega) (by omega)

theorem generateRays_length (E : Env) (cam : Camera) (iter td : ℕ) :
    (generateRays E cam iter td).length =
      cam.resolutionX * cam.resolutionY := by
  unfold generateRays
  rw [List.length_map, List.length_range]

theorem generateRays_rb (E : Env) (cam : Camera) (iter td : ℕ) :
    ∀ p ∈ generateRays E cam iter td, p.remainingBounces = (td : ℤ) := by
  intro p hp
  obtain ⟨i, _, rfl⟩ := List.mem_map.mp hp
  rfl

theorem generateRays_color (E : Env) (cam : Camera) (iter td : ℕ) :
    ∀ p ∈ generateRays E cam iter td, p.color = Vec3.ones := by
  intro p hp
  obtain ⟨i, _, rfl⟩ := List.mem_map.mp hp
  rfl

theorem generateRays_pix (E : Env) (cam : Camera) (iter td : ℕ) :
    pixList (generateRays E cam iter td) =
      List.range (cam.resolutionX * cam.resolutionY) := by
  unfold pixList generateRays
  rw [List.map_map]
  have : ∀ i ∈ List.range (cam.resolutionX * cam.resolutionY),
      ((fun p => p.pixelIndex) ∘ fun i =>
        generateRayForPixel E cam iter td (i % cam.resolutionX)
          (i / cam.resolutionX)) i = id i := by
    intro i _
    show i % cam.resolutionX + i / cam.resolutionX * cam.resolutionX = i
    exact Nat.mod_add_div' i cam.resolutionX
  rw [List.map_congr_left this, List.map_id]

theorem pathtrace_some (E : Env) (geoms triangles : List Geom)
    (materials : List Material) (cam : Camera) (traceDepth iter : ℕ)
    (matSort : Bool) (image : ℕ → Vec3) :
    ∃ r, pathtrace E geoms triangles materials cam traceDepth iter matSort
      image = some r := by
  have hrun : ∃ sf, loopRun E geoms triangles materials iter matSort
      traceDepth (cam.resolutionX * cam.resolutionY) (traceDepth + 1)
      { paths := generateRays E cam iter traceDepth,
        numPaths := cam.resolutionX * cam.resolutionY,
        depth := 0 } = some sf := by
    by_cases htd : traceDepth = 0
    · subst htd
      simp only [loopRun]
      rw [if_pos]
      · exact ⟨_, rfl⟩
      · unfold loopExit
        apply decide_eq_true
        right
        apply loopStep_numPaths_zero
        intro p hp
        rw [generateRays_rb E cam iter 0 p hp]
        exact le_refl _
    · refine loopRun_progress E geoms triangles materials iter matSort
        traceDepth (cam.resolutionX * cam.resolutionY) (traceDepth + 1)
        _ ?_ ?_
      · show 0 < traceDepth
        omega
      · show traceDepth ≤ 0 + (traceDepth + 1)
        omega
  obtain ⟨sf, hsf⟩ := hrun
  refine ⟨(finalGatherImage image (sf.paths.take sf.numPaths), sf), ?_⟩
  simp only [pathtrace]
  rw [hsf]

theorem finalGather_char (paths : List PathSegment) (image : ℕ → Vec3)
    (q : ℕ) :
    finalGatherImage image paths q =
      Vec3.add (image q)
        (vsum ((paths.filter (fun p => p.pixelIndex = q)).map
          (fun p => p.color))) := by
  induction paths generalizing image with
  | nil =>
    show image q = Vec3.add (image q) Vec3.zero
    rw [Vec3.add_zero_right]
  | cons pa rest ih =>
    show finalGatherImage
      (fun r => if r = pa.pixelIndex then Vec3.add (image r) pa.color
        else image r) rest q = _
    rw [ih, List.filter_cons]
    by_cases hq : pa.pixelIndex = q
    · rw [if_pos hq.symm, if_pos (decide_eq_true hq)]
      show Vec3.add (Vec3.add (image q) pa.color) _ = _
      rw [List.map_cons]
      show _ = Vec3.add (image q) (Vec3.add pa.color _)
      rw [Vec3.add_assoc3]
    · rw [if_neg (fun hc => hq hc.symm),
        if_neg (fun hc => hq (of_decide_eq_true hc))]

theorem countP_range_zero {n p : ℕ} (hp : n ≤ p) :
    List.countP (fun i => decide (i = p)) (List.range n) = 0 := by
  induction n with
  | zero => rfl
  | succ m ih =>
    rw [List.range_succ, List.countP_append, ih (by omega)]
    have : (decide (m = p)) = false := by
      apply decide_eq_false
      omega
    simp [List.countP_cons, this]

theorem countP_range_one {n p : ℕ} (hp : p < n) :
    List.countP (fun i => decide (i = p)) (List.range n) = 1 := by
  induction n with
  | zero => omega
  | succ m ih =>
    rw [List.range_succ, List.countP_append]
    by_cases hpm : p < m
    · rw [ih hpm]
      have : (decide (m = p)) = false := by
        apply decide_eq_false
        omega
      simp [List.countP_cons, this]
    · have hpe : p = m := by omega
      rw [countP_range_zero (by omega)]
      have : (decide (m = p)) = true := by
        apply decide_eq_true
        omega
      simp [List.countP_cons, this]

theorem filter_pix_single {l : List PathSegment} {n p : ℕ}
    (hperm : (pixList l).Perm (List.range n)) (hp : p < n) :
    ∃ q, l.filter (fun x => x.pixelIndex = p) = [q] := by
  have hlen : (l.filter (fun x => x.pixelIndex = p)).length = 1 := by
    rw [← List.countP_eq_length_filter]
    have h1 : List.countP (fun x => decide (x.pixelIndex = p)) l =
        List.countP (fun i => decide (i = p)) (pixList l) := by
      unfold pixList
      rw [List.countP_map]
      rfl
    rw [h1, hperm.countP_eq, countP_range_one hp]
  exact List.length_eq_one.mp hlen

/-- C1: for every iteration, after the bounce loop exits (whether at
depth == traceDepth or at active count zero), the accumulation pass
processes all pixelcount originally-issued paths: the final buffer still
holds exactly pixelcount paths whose pixel indexes are a permutation of
0..pixelcount-1, finalGather runs over all of them (num_paths was reset
to pixelcount), and each pixel receives exactly one contribution, the
final throughput of its unique path. -/
theorem C1_accumulator_all_paths (E : Env) (geoms triangles : List Geom)
    (materials : List Material) (cam : Camera) (traceDepth iter : ℕ)
    (matSort : Bool) (image : ℕ → Vec3) (r : (ℕ → Vec3) × LoopState)
    (h : pathtrace E geoms triangles materials cam traceDepth iter matSort
      image = some r) :
    r.2.paths.length = cam.resolutionX * cam.resolutionY ∧
      r.2.numPaths = cam.resolutionX * cam.resolutionY ∧
      (pixList r.2.paths).Perm
        (List.range (cam.resolutionX * cam.resolutionY)) ∧
      ∀ p, p < cam.resolutionX * cam.resolutionY →
        ∃ c, (r.2.paths.filter (fun x => x.pixelIndex = p)).map
            (fun x => x.color) = [c] ∧
          r.1 p = Vec3.add (image p) c := by
  simp only [pathtrace] at h
  cases hl : loopRun E geoms triangles materials iter matSort traceDepth
      (cam.resolutionX * cam.resolutionY) (traceDepth + 1)
      { paths := generateRays E cam iter traceDepth,
        numPaths := cam.resolutionX * cam.resolutionY, depth := 0 } with
  | none => rw [hl] at h; cases h
  | some sf =>
    rw [hl] at h
    injection h with h2
    have hnum : sf.numPaths = cam.resolutionX * cam.resolutionY :=
      loopRun_numPaths E geoms triangles materials iter matSort traceDepth
        (cam.resolutionX * cam.resolutionY) _ _ _ hl
    have hperm : (pixList sf.paths).Perm
        (List.range (cam.resolutionX * cam.resolutionY)) := by
      have hch := loopRun_chain E geoms triangles materials iter matSort
        traceDepth (cam.resolutionX * cam.resolutionY)
        (fun a b => (pixList b).Perm (pixList a))
        (fun a b c hab hbc => hbc.trans hab)
        (fun st => loopStep_pix_perm E geoms triangles materials iter
          matSort st)
        _ _ _ hl
      have hch2 : (pixList sf.paths).Perm
          (pixList (generateRays E cam iter traceDepth)) := hch
      rw [generateRays_pix] at hch2
      exact hch2
    have hlen : sf.paths.length = cam.resolutionX * cam.resolutionY := by
      have := hperm.length_eq
      unfold pixList at this
      rw [List.length_map, List.length_range] at this
      exact this
    have htake : sf.paths.take sf.numPaths = sf.paths := by
      rw [hnum, ← hlen, List.take_length]
    rw [← h2]
    refine ⟨hlen, hnum, hperm, ?_⟩
    intro p hp
    obtain ⟨q, hq⟩ := filter_pix_single hperm hp
    refine ⟨q.color, by rw [hq]; rfl, ?_⟩
    show finalGatherImage image (sf.paths.take sf.numPaths) p = _
    rw [htake, finalGather_char, hq]
    show Vec3.add (image p) (Vec3.add q.color Vec3.zero) = _
    rw [Vec3.add_zero_right]

/-- Witness for C1 at a concrete 1-pixel run. -/
theorem C1_accumulator_all_paths_witness :
    c1wit_r.2.paths.length = 1 ∧ c1wit_r.2.numPaths = 1 ∧
      (pixList c1wit_r.2.paths).Perm (List.range 1) ∧
      (c1wit_r.2.paths.filter (fun x => x.pixelIndex = 0)).map
        (fun x => x.color) = [Vec3.zero] ∧
      c1wit_r.1 0 = Vec3.add (blackImage 0) Vec3.zero := by
  have h : pathtrace trivEnv [] [] [] unitCam 1 1 false blackImage =
      some c1wit_r := rfl
  have hc := C1_accumulator_all_paths trivEnv [] [] [] unitCam 1 1 false
    blackImage c1wit_r h
  obtain ⟨c, hc1, hc2⟩ := hc.2.2.2 0 (by decide)
  have hmap : (c1wit_r.2.paths.filter (fun x => x.pixelIndex = 0)).map
      (fun x => x.color) = [Vec3.zero] := by decide
  have hcz : c = Vec3.zero := by
    rw [hmap] at hc1
    injection hc1.symm with hh
  refine ⟨hc.1, hc.2.1, hc.2.2.1, hmap, ?_⟩
  rw [← hcz]
  exact hc2

/-- C3: the four cases of shadeMaterial for a path entering the shader:
a hit on an emissive material multiplies throughput by
materialColor * emittance and forces remainingBounces to 0 whatever its
prior value; a hit on a non-emissive material scatters the ray and
decrements remainingBounces by exactly one; a miss with bounces left
paints the path black and forces remainingBounces to 0; a path entering
with remainingBounces == 0 is left untouched. -/
theorem C3_shader_cases (E : Env) (materials : List Material)
    (iter depth idx : ℕ) (isect : ShadeableIntersection)
    (path : PathSegment) :
    (isect.t > 0 → path.remainingBounces > 0 →
      (materials.getD isect.materialId default).emittance > 0 →
      shadeOne E materials iter depth idx isect path =
        { path with
          color := Vec3.mul path.color
            (Vec3.scale (materials.getD isect.materialId default).emittance
              (materials.getD isect.materialId default).color),
          remainingBounces := 0 }) ∧
    (isect.t > 0 → path.remainingBounces > 0 →
      (materials.getD isect.materialId default).emittance ≤ 0 →
      shadeOne E materials iter depth idx isect path =
        { scatterRay E path path.ray.intersect isect.surfaceNormal
            (materials.getD isect.materialId default)
            (draw01 (makeSeededRandomEngine E iter idx depth)).1 with
          remainingBounces := path.remainingBounces - 1 }) ∧
    (isect.t ≤ 0 → path.remainingBounces > 0 →
      shadeOne E materials iter depth idx isect path =
        { path with color := Vec3.zero, remainingBounces := 0 }) ∧
    (path.remainingBounces = 0 →
      shadeOne E materials iter depth idx isect path = path) := by
  refine ⟨?_, ?_, ?_, ?_⟩
  · intro h1 h2 h3
    exact shadeOne_emissive E materials iter depth idx isect path h1 h2 h3
  · intro h1 h2 h3
    exact shadeOne_scatter E materials iter depth idx isect path h1 h2 h3
  · intro h1 h2
    exact shadeOne_miss E materials iter depth idx isect path h1 h2
  · intro h0
    exact shadeOne_untouched E materials iter depth idx isect path
      (le_of_eq h0)

/-- Witness for C3, one concrete instance per case. -/
theorem C3_shader_cases_witness :
    (shadeOne trivEnv matsEm 1 1 0 hitIsect cpath =
      { cpath with
        color := Vec3.mul cpath.color (Vec3.scale 5 Vec3.ones),
        remainingBounces := 0 }) ∧
    (shadeOne trivEnv matsDiff 1 1 0 hitIsect cpath =
      { scatterRay trivEnv cpath cpath.ray.intersect
          hitIsect.surfaceNormal (matsDiff.getD 0 default)
          (draw01 (makeSeededRandomEngine trivEnv 1 0 1)).1 with
        remainingBounces := cpath.remainingBounces - 1 }) ∧
    (shadeOne trivEnv matsDiff 1 1 0 missIsect cpath =
      { cpath with color := Vec3.zero, remainingBounces := 0 }) ∧
    (shadeOne trivEnv matsDiff 1 1 0 hitIsect cpath0 = cpath0) := by
  refine ⟨?_, ?_, ?_, ?_⟩
  · exact (C3_shader_cases trivEnv matsEm 1 1 0 hitIsect cpath).1
      (by decide) (by decide) (by decide)
  · exact (C3_shader_cases trivEnv matsDiff 1 1 0 hitIsect cpath).2.1
      (by decide) (by decide) (by decide)
  · exact (C3_shader_cases trivEnv matsDiff 1 1 0 missIsect cpath).2.2.1
      (by decide) (by decide)
  · exact (C3_shader_cases trivEnv matsDiff 1 1 0 hitIsect cpath0).2.2.2
      (by decide)

/-- C4: the Path Compactor (thrust::partition with the has_no_bounces
predicate) splits the just-shaded active array into still-bouncing paths
followed by terminated ones, reports the new active count as the size of
the first group, and preserves the path multiset; the loop applies it to
the shaded active prefix and keeps the earlier-terminated tail. -/
theorem C4_compaction (E : Env) (geoms triangles : List Geom)
    (materials : List Material) (iter : ℕ) (matSort : Bool)
    (s : LoopState) (l : List PathSegment) :
    ((l.partition has_no_bounces).1 = l.filter has_no_bounces) ∧
    ((l.partition has_no_bounces).2 =
      l.filter (fun p => !has_no_bounces p)) ∧
    (((l.partition has_no_bounces).1 ++
      (l.partition has_no_bounces).2).Perm l) ∧
    ((l.partition has_no_bounces).1.length +
      (l.partition has_no_bounces).2.length = l.length) ∧
    (∀ x ∈ (l.partition has_no_bounces).1, x.remainingBounces > 0) ∧
    (∀ x ∈ (l.partition has_no_bounces).2, ¬(x.remainingBounces > 0)) ∧
    ((loopStep E geoms triangles materials iter matSort s).paths =
      ((stepShaded E geoms triangles materials iter matSort
          s).partition has_no_bounces).1 ++
        ((stepShaded E geoms triangles materials iter matSort
          s).partition has_no_bounces).2 ++
        s.paths.drop s.numPaths) ∧
    ((loopStep E geoms triangles materials iter matSort s).numPaths =
      ((stepShaded E geoms triangles materials iter matSort
        s).partition has_no_bounces).1.length) ∧
    ((stepShaded E geoms triangles materials iter matSort s).length =
      (s.paths.take s.numPaths).length) := by
  have hpart := List.partition_eq_filter_filter has_no_bounces l
  have h1 : (l.partition has_no_bounces).1 = l.filter has_no_bounces := by
    rw [hpart]
  have h2 : (l.partition has_no_bounces).2 =
      l.filter (fun p => !has_no_bounces p) := by
    rw [hpart]
    rfl
  have hperm : ((l.partition has_no_bounces).1 ++
      (l.partition has_no_bounces).2).Perm l := by
    rw [h1, h2]
    exact List.filter_append_perm _ _
  refine ⟨h1, h2, hperm, ?_, ?_, ?_, ?_, ?_, ?_⟩
  · have := hperm.length_eq
    rw [List.length_append] at this
    exact this
  · intro x hx
    rw [h1] at hx
    have := List.of_mem_filter hx
    unfold has_no_bounces at this
    exact of_decide_eq_true this
  · intro x hx
    rw [h2] at hx
    have := List.of_mem_filter hx
    simp only [Bool.not_eq_true'] at this
    unfold has_no_bounces at this
    exact of_decide_eq_false this
  · rw [loopStep_eq, List.partition_eq_filter_filter]
    rfl
  · rw [loopStep_eq, List.partition_eq_filter_filter]
  · unfold stepShaded
    rw [shadeList_length]
    by_cases hms : matSort
    · rw [if_pos hms]
      unfold sortStage
      rw [List.length_insertionSort, List.length_map]
    · rw [if_neg hms, List.length_map]

/-- Witness for C4 at a concrete two-element shaded list. -/
theorem C4_compaction_witness :
    (([cpath, cpath0].partition has_no_bounces).1 =
      [cpath, cpath0].filter has_no_bounces) ∧
    ((([cpath, cpath0].partition has_no_bounces).1 ++
      ([cpath, cpath0].partition has_no_bounces).2).Perm
        [cpath, cpath0]) ∧
    (cpath.remainingBounces > 0) ∧
    ¬(cpath0.remainingBounces > 0) := by
  have h := C4_compaction trivEnv [] [] [] 1 false
    { paths := [], numPaths := 0, depth := 0 } [cpath, cpath0]
  refine ⟨h.1, h.2.2.1, ?_, ?_⟩
  · exact h.2.2.2.2.1 cpath (by decide)
  · exact h.2.2.2.2.2.1 cpath0 (by decide)

/-- C5: per-stage invariants of a path: neither the shader nor the
intersection engine ever changes pixelIndex; remainingBounces never
increases; throughput channels stay non-negative when material colors
and emittances are non-negative; compaction and sorting only permute the
buffer (so the pixelIndex population is preserved); and along a whole
bounce loop every path color stays non-negative. -/
theorem C5_invariants (E : Env) (geoms triangles : List Geom)
    (materials : List Material) (iter depth idx : ℕ)
    (isect : ShadeableIntersection) (path : PathSegment) (matSort : Bool)
    (traceDepth pixelcount fuel : ℕ) (s sf : LoopState) :
    ((shadeOne E materials iter depth idx isect path).pixelIndex =
      path.pixelIndex) ∧
    ((computeIntersectionsOne E geoms triangles path).2.pixelIndex =
      path.pixelIndex) ∧
    ((shadeOne E materials iter depth idx isect path).remainingBounces ≤
      path.remainingBounces) ∧
    ((computeIntersectionsOne E geoms triangles path).2.remainingBounces =
      path.remainingBounces) ∧
    ((∀ m ∈ materials, m.color.Nonneg ∧ 0 ≤ m.emittance) →
      path.color.Nonneg →
      (shadeOne E materials iter depth idx isect path).color.Nonneg) ∧
    ((computeIntersectionsOne E geoms triangles path).2.color =
      path.color) ∧
    ((pixList (loopStep E geoms triangles materials iter matSort
      s).paths).Perm (pixList s.paths)) ∧
    ((∀ m ∈ materials, m.color.Nonneg ∧ 0 ≤ m.emittance) →
      (∀ p ∈ s.paths, p.color.Nonneg) →
      loopRun E geoms triangles materials iter matSort traceDepth
        pixelcount fuel s = some sf →
      ∀ p ∈ sf.paths, p.color.Nonneg) := by
  refine ⟨shadeOne_pixelIndex E materials iter depth idx isect path,
    (isectOne_snd_fields E geoms triangles path).1,
    shadeOne_rb_le E materials iter depth idx isect path,
    (isectOne_snd_fields E geoms triangles path).2.2,
    shadeOne_color_nonneg E materials iter depth idx isect path,
    (isectOne_snd_fields E geoms triangles path).2.1,
    loopStep_pix_perm E geoms triangles materials iter matSort s, ?_⟩
  intro hm h0 hrun
  have hchain := loopRun_chain E geoms triangles materials iter matSort
    traceDepth pixelcount
    (fun a b => (∀ p ∈ a, p.color.Nonneg) → (∀ p ∈ b, p.color.Nonneg))
    (fun a b c hab hbc h => hbc (hab h))
    (fun st hall => loopStep_mem E geoms triangles materials iter matSort
      st (fun p => p.color.Nonneg)
      (fun p hp => by
        show (computeIntersectionsOne E geoms triangles p).2.color.Nonneg
        rw [(isectOne_snd_fields E geoms triangles p).2.1]
        exact hp)
      (fun d i ise p hp =>
        shadeOne_color_nonneg E materials iter d i ise p hm hp)
      hall)
    fuel s sf hrun
  exact hchain h0

/-- Witness for C5 at concrete inputs, including a full 1-pixel run. -/
theorem C5_invariants_witness :
    ((shadeOne trivEnv matsDiff 1 1 0 hitIsect cpath).pixelIndex =
      cpath.pixelIndex) ∧
    ((shadeOne trivEnv matsDiff 1 1 0 hitIsect cpath).color.Nonneg) ∧
    ((c1wit_r.2.paths.getD 0 default).color.Nonneg) := by
  have h := C5_invariants trivEnv [] [] matsDiff 1 1 0 hitIsect cpath
    false 1 1 2
    { paths := generateRays trivEnv unitCam 1 1, numPaths := 1, depth := 0 }
    c1wit_r.2
  have hrun : loopRun trivEnv [] [] matsDiff 1 false 1 1 2
      { paths := generateRays trivEnv unitCam 1 1, numPaths := 1,
        depth := 0 } = some c1wit_r.2 := by rfl
  have hmats : ∀ m ∈ matsDiff, m.color.Nonneg ∧ 0 ≤ m.emittance := by
    decide
  have hinit : ∀ p ∈ (⟨generateRays trivEnv unitCam 1 1, 1, 0⟩ :
      LoopState).paths, p.color.Nonneg := by
    intro p hp
    rw [generateRays_color trivEnv unitCam 1 1 p hp]
    exact Vec3.nonneg_ones
  have hall := h.2.2.2.2.2.2.2 hmats hinit hrun
  refine ⟨h.1, h.2.2.2.2.1 hmats (by decide), ?_⟩
  refine hall _ ?_
  show c1wit_r.2.paths.getD 0 default ∈ c1wit_r.2.paths
  have : c1wit_r.2.paths.length = 1 := by decide
  rw [List.getD_eq_getElem _ _ (by omega)]
  exact List.getElem_mem _

theorem triLoop_miss (E : Env) (ray : RayT) :
    ∀ (l : List Geom), (∀ tri ∈ l, (E.triTest tri ray).t ≤ 0) →
    ∀ (s : IsectState) (p : ℕ),
      s.hit_geom_index = -1 → s.t ≤ 0 →
      (triLoop E ray s p l).hit_geom_index = -1 ∧
        (triLoop E ray s p l).t ≤ 0 := by
  intro l
  induction l with
  | nil => intro _ s p h1 h2; exact ⟨h1, h2⟩
  | cons tri rest ih =>
    intro hl s p h1 h2
    have hhd := hl tri (List.mem_cons_self _ _)
    have htl := fun tr htr => hl tr (List.mem_cons_of_mem _ htr)
    have hstep : triStep E ray s p tri =
        { s with t := (E.triTest tri ray).t,
                 tmp_intersect := (E.triTest tri ray).point,
                 tmp_normal := (E.triTest tri ray).normal } := by
      simp only [triStep]
      rw [if_neg]
      rintro ⟨hp, -⟩
      exact absurd hp (not_lt.mpr hhd)
    exact ih htl (triStep E ray s p tri) (p + 1)
      (by rw [hstep]; exact h1) (by rw [hstep]; exact hhd)

theorem geomLoop_miss (E : Env) (triangles : List Geom) (ray : RayT)
    (htris : ∀ tri ∈ triangles, (E.triTest tri ray).t ≤ 0) :
    ∀ (l : List Geom),
      (∀ g ∈ l, (E.boxTest g ray).t ≤ 0 ∧ (E.sphereTest g ray).t ≤ 0) →
    ∀ (s : IsectState) (i : ℕ),
      s.hit_geom_index = -1 → s.t ≤ 0 →
      (geomLoop E triangles ray s i l).hit_geom_index = -1 := by
  intro l
  induction l with
  | nil => intro _ s i h1 _; exact h1
  | cons g rest ih =>
    intro hl s i h1 h2
    have hhd := hl g (List.mem_cons_self _ _)
    have htl := fun g2 hg2 => hl g2 (List.mem_cons_of_mem _ hg2)
    show (geomLoop E triangles ray (geomStep E triangles ray s i g)
      (i + 1) rest).hit_geom_index = -1
    have hstep : (geomStep E triangles ray s i g).hit_geom_index = -1 ∧
        (geomStep E triangles ray s i g).t ≤ 0 := by
      obtain ⟨gt, mid⟩ := g
      cases gt with
      | CUBE =>
        simp only [geomStep, analyticUpdate]
        rw [if_neg]
        · exact ⟨h1, hhd.1⟩
        · rintro ⟨hp, -, -⟩
          exact absurd hp (not_lt.mpr hhd.1)
      | SPHERE =>
        simp only [geomStep, analyticUpdate]
        rw [if_neg]
        · exact ⟨h1, hhd.2⟩
        · rintro ⟨hp, -, -⟩
          exact absurd hp (not_lt.mpr hhd.2)
      | BV =>
        simp only [geomStep, analyticUpdate]
        by_cases hg : E.bvGate ⟨GType.BV, mid⟩ ray
        · rw [if_pos hg]
          obtain ⟨ht1, ht2⟩ := triLoop_miss E ray triangles htris s 0 h1 h2
          rw [if_neg]
          · exact ⟨ht1, ht2⟩
          · rintro ⟨hp, -, -⟩
            exact absurd hp (not_lt.mpr ht2)
        · rw [if_neg hg, if_neg]
          · exact ⟨h1, h2⟩
          · rintro ⟨hp, -, -⟩
            exact absurd hp (not_lt.mpr h2)
    exact ih htl (geomStep E triangles ray s i g) (i + 1) hstep.1 hstep.2

theorem triStep_hidx (E : Env) (ray : RayT) (s : IsectState) (p : ℕ)
    (tri : Geom) (h : s.hitmesh = true → 0 ≤ s.hit_geom_index) :
    (triStep E ray s p tri).hitmesh = true →
      0 ≤ (triStep E ray s p tri).hit_geom_index := by
  simp only [triStep]
  split
  · intro _
    show (0 : ℤ) ≤ (p : ℤ)
    exact Int.ofNat_nonneg p
  · exact h

theorem triLoop_hidx (E : Env) (ray : RayT) :
    ∀ (l : List Geom) (s : IsectState) (p : ℕ),
      (s.hitmesh = true → 0 ≤ s.hit_geom_index) →
      ((triLoop E ray s p l).hitmesh = true →
        0 ≤ (triLoop E ray s p l).hit_geom_index) := by
  intro l
  induction l with
  | nil => intro s p h; exact h
  | cons tri rest ih =>
    intro s p h
    exact ih (triStep E ray s p tri) (p + 1) (triStep_hidx E ray s p tri h)

theorem analyticUpdate_hidx (s : IsectState) (i : ℕ)
    (h : s.hitmesh = true → 0 ≤ s.hit_geom_index) :
    (analyticUpdate s i).hitmesh = true →
      0 ≤ (analyticUpdate s i).hit_geom_index := by
  unfold analyticUpdate
  split
  · intro _
    show (0 : ℤ) ≤ (i : ℤ)
    exact Int.ofNat_nonneg i
  · exact h

theorem geomLoop_hidx (E : Env) (triangles : List Geom) (ray : RayT) :
    ∀ (l : List Geom) (s : IsectState) (i : ℕ),
      (s.hitmesh = true → 0 ≤ s.hit_geom_index) →
      ((geomLoop E triangles ray s i l).hitmesh = true →
        0 ≤ (geomLoop E triangles ray s i l).hit_geom_index) := by
  intro l
  induction l with
  | nil => intro s i h; exact h
  | cons g rest ih =>
    intro s i h
    refine ih (geomStep E triangles ray s i g) (i + 1) ?_
    obtain ⟨gt, mid⟩ := g
    cases gt with
    | CUBE =>
      simp only [geomStep]
      exact analyticUpdate_hidx _ i h
    | SPHERE =>
      simp only [geomStep]
      exact analyticUpdate_hidx _ i h
    | BV =>
      simp only [geomStep]
      by_cases hg : E.bvGate ⟨GType.BV, mid⟩ ray
      · rw [if_pos hg]
        exact analyticUpdate_hidx _ i (triLoop_hidx E ray triangles s 0 h)
      · rw [if_neg hg]
        exact analyticUpdate_hidx _ i h

/-- C2: the Intersection Engine record discipline.  (a) Once the
recorded nearest hit belongs to the triangle collection (hitmesh set),
processing a later analytic primitive never changes the record, whatever
distance its test returns.  (b) While hitmesh is clear, the trailing
comparison applies the strict nearest-positive-distance rule, recording
the candidate and the geometry index.  (c) A triangle test applies the
same nearest-positive rule regardless of hitmesh and sets the flag.
(d) When no primitive test returns a positive distance, the thread
writes t = -1 and leaves materialId and the normal at their memset
zeros.  (e) On a hit, t is the recorded t_min and materialId is read
from the collection (triangles when hitmesh, analytic geoms otherwise)
that owns the recorded hit. -/
theorem C2_intersection_engine (E : Env) (geoms triangles : List Geom)
    (ray : RayT) (s : IsectState) (i p : ℕ) (g tri : Geom)
    (path : PathSegment) :
    (s.hitmesh = true → g.gtype = GType.CUBE ∨ g.gtype = GType.SPHERE →
      (geomStep E triangles ray s i g).t_min = s.t_min ∧
        (geomStep E triangles ray s i g).hit_geom_index =
          s.hit_geom_index ∧
        (geomStep E triangles ray s i g).hitmesh = true ∧
        (geomStep E triangles ray s i g).intersect_point =
          s.intersect_point ∧
        (geomStep E triangles ray s i g).normal = s.normal ∧
        (geomStep E triangles ray s i g).rayIntersect = s.rayIntersect) ∧
    (s.hitmesh = false → s.t > 0 → s.t_min > s.t →
      analyticUpdate s i =
        { s with
          t_min := s.t,
          hit_geom_index := (i : ℤ),
          intersect_point := s.tmp_intersect,
          normal := s.tmp_normal,
          rayIntersect := s.tmp_intersect }) ∧
    (¬(s.t > 0 ∧ s.t_min > s.t) → analyticUpdate s i = s) ∧
    ((E.triTest tri ray).t > 0 → s.t_min > (E.triTest tri ray).t →
      triStep E ray s p tri =
        { s with
          t := (E.triTest tri ray).t,
          tmp_intersect := (E.triTest tri ray).point,
          tmp_normal := (E.triTest tri ray).normal,
          t_min := (E.triTest tri ray).t,
          hit_geom_index := (p : ℤ),
          intersect_point := (E.triTest tri ray).point,
          normal := (E.triTest tri ray).normal,
          rayIntersect := (E.triTest tri ray).point,
          hitmesh := true }) ∧
    (¬((E.triTest tri ray).t > 0 ∧ s.t_min > (E.triTest tri ray).t) →
      triStep E ray s p tri =
        { s with
          t := (E.triTest tri ray).t,
          tmp_intersect := (E.triTest tri ray).point,
          tmp_normal := (E.triTest tri ray).normal }) ∧
    ((∀ g2 ∈ geoms, (E.boxTest g2 path.ray).t ≤ 0 ∧
        (E.sphereTest g2 path.ray).t ≤ 0) →
      (∀ tr ∈ triangles, (E.triTest tr path.ray).t ≤ 0) →
      (computeIntersectionsOne E geoms triangles path).1 =
        ⟨-1, 0, Vec3.zero⟩) ∧
    ((geomLoop E triangles path.ray (isectInit path.ray) 0
        geoms).hitmesh = true →
      (computeIntersectionsOne E geoms triangles path).1.materialId =
        (triangles.getD (geomLoop E triangles path.ray
          (isectInit path.ray) 0 geoms).hit_geom_index.toNat
          default).materialid ∧
      (computeIntersectionsOne E geoms triangles path).1.t =
        (geomLoop E triangles path.ray (isectInit path.ray) 0
          geoms).t_min) ∧
    ((geomLoop E triangles path.ray (isectInit path.ray) 0
        geoms).hitmesh = false →
      (geomLoop E triangles path.ray (isectInit path.ray) 0
        geoms).hit_geom_index ≠ -1 →
      (computeIntersectionsOne E geoms triangles path).1.materialId =
        (geoms.getD (geomLoop E triangles path.ray (isectInit path.ray)
          0 geoms).hit_geom_index.toNat default).materialid ∧
      (computeIntersectionsOne E geoms triangles path).1.t =
        (geomLoop E triangles path.ray (isectInit path.ray) 0
          geoms).t_min) := by
  refine ⟨?_, ?_, ?_, ?_, ?_, ?_, ?_, ?_⟩
  · intro hm hty
    have hupd : ∀ s1 : IsectState, s1.hitmesh = true →
        analyticUpdate s1 i = s1 := by
      intro s1 h1
      unfold analyticUpdate
      rw [if_neg]
      rintro ⟨-, -, hf⟩
      rw [h1] at hf
      cases hf
    obtain ⟨gt, mid⟩ := g
    rcases hty with hc | hc <;> simp only at hc <;> subst hc
    · simp only [geomStep]
      rw [hupd _ (by exact hm)]
      exact ⟨rfl, rfl, hm, rfl, rfl, rfl⟩
    · simp only [geomStep]
      rw [hupd _ (by exact hm)]
      exact ⟨rfl, rfl, hm, rfl, rfl, rfl⟩
  · intro hm ht htm
    unfold analyticUpdate
    rw [if_pos ⟨ht, htm, hm⟩]
  · intro hc
    unfold analyticUpdate
    rw [if_neg]
    rintro ⟨h1, h2, -⟩
    exact hc ⟨h1, h2⟩
  · intro ht htm
    simp only [triStep]
    rw [if_pos ⟨ht, htm⟩]
  · intro hc
    simp only [triStep]
    rw [if_neg]
    rintro ⟨h1, h2⟩
    exact hc ⟨h1, h2⟩
  · intro hb htr
    simp only [computeIntersectionsOne]
    rw [if_pos]
    exact geomLoop_miss E triangles path.ray htr geoms hb
      (isectInit path.ray) 0 rfl (le_refl 0)
  · intro hm
    have hidx : (geomLoop E triangles path.ray (isectInit path.ray) 0
        geoms).hit_geom_index ≠ -1 := by
      have h0 := geomLoop_hidx E triangles path.ray geoms
        (isectInit path.ray) 0 (fun hf => by cases hf) hm
      omega
    simp only [computeIntersectionsOne]
    rw [if_neg hidx, if_neg (by rw [hm]; exact fun hf => by cases hf)]
    exact ⟨rfl, rfl⟩
  · intro hm hidx
    simp only [computeIntersectionsOne]
    rw [if_neg hidx, if_pos hm]
    exact ⟨rfl, rfl⟩

/-- Witness for C2, one concrete instance per conjunct. -/
theorem C2_intersection_engine_witness :
    ((geomStep hitEnv [⟨GType.SPHERE, 9⟩] wray wsMesh 4
        ⟨GType.CUBE, 0⟩).t_min = wsMesh.t_min ∧
      (geomStep hitEnv [⟨GType.SPHERE, 9⟩] wray wsMesh 4
        ⟨GType.CUBE, 0⟩).hit_geom_index = wsMesh.hit_geom_index) ∧
    (analyticUpdate wsCand 4 =
      { wsCand with
        t_min := wsCand.t,
        hit_geom_index := (4 : ℤ),
        intersect_point := wsCand.tmp_intersect,
        normal := wsCand.tmp_normal,
        rayIntersect := wsCand.tmp_intersect }) ∧
    (analyticUpdate wsMesh 4 = wsMesh) ∧
    (triStep hitEnv wray (isectInit wray) 2 ⟨GType.CUBE, 4⟩ =
      { isectInit wray with
        t := (hitEnv.triTest ⟨GType.CUBE, 4⟩ wray).t,
        tmp_intersect := (hitEnv.triTest ⟨GType.CUBE, 4⟩ wray).point,
        tmp_normal := (hitEnv.triTest ⟨GType.CUBE, 4⟩ wray).normal,
        t_min := (hitEnv.triTest ⟨GType.CUBE, 4⟩ wray).t,
        hit_geom_index := (2 : ℤ),
        intersect_point := (hitEnv.triTest ⟨GType.CUBE, 4⟩ wray).point,
        normal := (hitEnv.triTest ⟨GType.CUBE, 4⟩ wray).normal,
        rayIntersect := (hitEnv.triTest ⟨GType.CUBE, 4⟩ wray).point,
        hitmesh := true }) ∧
    (triStep trivEnv wray wsMesh 2 ⟨GType.CUBE, 4⟩ =
      { wsMesh with
        t := (trivEnv.triTest ⟨GType.CUBE, 4⟩ wray).t,
        tmp_intersect := (trivEnv.triTest ⟨GType.CUBE, 4⟩ wray).point,
        tmp_normal := (trivEnv.triTest ⟨GType.CUBE, 4⟩ wray).normal }) ∧
    ((computeIntersectionsOne trivEnv [⟨GType.CUBE, 0⟩, ⟨GType.BV, 1⟩]
        [⟨GType.SPHERE, 2⟩] cpath).1 = ⟨-1, 0, Vec3.zero⟩) ∧
    ((computeIntersectionsOne hitEnv [⟨GType.BV, 0⟩] [⟨GType.CUBE, 4⟩]
        cpath).1.materialId = 4) ∧
    ((computeIntersectionsOne hitEnv [⟨GType.CUBE, 2⟩] []
        cpath).1.materialId = 2) := by
  refine ⟨?_, ?_, ?_, ?_, ?_, ?_, ?_, ?_⟩
  · have h := (C2_intersection_engine hitEnv [] [⟨GType.SPHERE, 9⟩] wray
      wsMesh 4 2 ⟨GType.CUBE, 0⟩ ⟨GType.CUBE, 0⟩ cpath).1
      (by decide) (Or.inl rfl)
    exact ⟨h.1, h.2.1⟩
  · exact (C2_intersection_engine trivEnv [] [] wray wsCand 4 2
      ⟨GType.CUBE, 0⟩ ⟨GType.CUBE, 0⟩ cpath).2.1
      (by decide) (by decide) (by decide)
  · exact (C2_intersection_engine trivEnv [] [] wray wsMesh 4 2
      ⟨GType.CUBE, 0⟩ ⟨GType.CUBE, 0⟩ cpath).2.2.1 (by decide)
  · exact (C2_intersection_engine hitEnv [] [] wray (isectInit wray) 4 2
      ⟨GType.CUBE, 0⟩ ⟨GType.CUBE, 4⟩ cpath).2.2.2.1
      (by decide) (by decide)
  · exact (C2_intersection_engine trivEnv [] [] wray wsMesh 4 2
      ⟨GType.CUBE, 0⟩ ⟨GType.CUBE, 4⟩ cpath).2.2.2.2.1 (by decide)
  · exact (C2_intersection_engine trivEnv [⟨GType.CUBE, 0⟩, ⟨GType.BV, 1⟩]
      [⟨GType.SPHERE, 2⟩] wray wsMesh 4 2 ⟨GType.CUBE, 0⟩
      ⟨GType.CUBE, 4⟩ cpath).2.2.2.2.2.1 (by decide) (by decide)
  · exact ((C2_intersection_engine hitEnv [⟨GType.BV, 0⟩] [⟨GType.CUBE, 4⟩]
      wray wsMesh 4 2 ⟨GType.CUBE, 0⟩ ⟨GType.CUBE, 4⟩
      cpath).2.2.2.2.2.2.1 (by decide)).1.trans (by decide)
  · exact ((C2_intersection_engine hitEnv [⟨GType.CUBE, 2⟩] [] wray wsMesh
      4 2 ⟨GType.CUBE, 0⟩ ⟨GType.CUBE, 4⟩ cpath).2.2.2.2.2.2.2
      (by decide) (by decide)).1.trans (by decide)

theorem slot_index_lt {x y rx ry : ℕ} (hx : x < rx) (hy : y < ry) :
    x + y * rx < rx * ry := by
  have h1 : x + y * rx < rx + y * rx := Nat.add_lt_add_right hx _
  have h2 : rx + y * rx = (y + 1) * rx := by
    rw [Nat.succ_mul, Nat.add_comm]
  have h3 : (y + 1) * rx ≤ ry * rx :=
    Nat.mul_le_mul_right _ (by omega)
  calc x + y * rx < rx + y * rx := h1
    _ = (y + 1) * rx := h2
    _ ≤ ry * rx := h3
    _ = rx * ry := Nat.mul_comm _ _

theorem generateRays_getD (E : Env) (cam : Camera) (iter traceDepth i : ℕ)
    (h : i < cam.resolutionX * cam.resolutionY) :
    (generateRays E cam iter traceDepth).getD i default =
      generateRayForPixel E cam iter traceDepth (i % cam.resolutionX)
        (i / cam.resolutionX) := by
  unfold generateRays
  rw [List.getD_eq_getElem _ _
    (by rw [List.length_map, List.length_range]; exact h)]
  rw [List.getElem_map, List.getElem_range]

/-- C8: the Ray Generator emits exactly pixelcount paths in the fixed
slot mapping index = x + y * resolution.x, each initialized with
throughput (1,1,1), remainingBounces = traceDepth, origin at the camera,
and a direction that normalizes the camera basis combination of the
pixel coordinate jittered by two offsets in [-1/2, 1/2) drawn from the
stream seeded from (iteration, x, y). -/
theorem C8_ray_generator (E : Env) (cam : Camera) (iter traceDepth : ℕ) :
    (generateRays E cam iter traceDepth).length =
      cam.resolutionX * cam.resolutionY ∧
    (∀ x y, x < cam.resolutionX → y < cam.resolutionY →
      (generateRays E cam iter traceDepth).getD
        (x + y * cam.resolutionX) default =
        generateRayForPixel E cam iter traceDepth x y) ∧
    (∀ x y,
      (generateRayForPixel E cam iter traceDepth x y).color = Vec3.ones ∧
      (generateRayForPixel E cam iter traceDepth x y).remainingBounces =
        (traceDepth : ℤ) ∧
      (generateRayForPixel E cam iter traceDepth x y).pixelIndex =
        x + y * cam.resolutionX ∧
      (generateRayForPixel E cam iter traceDepth x y).ray.origin =
        cam.position ∧
      -(1 / 2 : ℚ) ≤ -(1 / 2 : ℚ) +
        (draw01 (makeSeededRandomEngine E iter x y)).1 ∧
      -(1 / 2 : ℚ) + (draw01 (makeSeededRandomEngine E iter x y)).1 <
        1 / 2 ∧
      -(1 / 2 : ℚ) ≤ -(1 / 2 : ℚ) +
        (draw01 (draw01 (makeSeededRandomEngine E iter x y)).2).1 ∧
      -(1 / 2 : ℚ) +
        (draw01 (draw01 (makeSeededRandomEngine E iter x y)).2).1 <
          1 / 2 ∧
      (generateRayForPixel E cam iter traceDepth x y).ray.direction =
        E.normalizeV (Vec3.sub
          (Vec3.sub cam.view
            (Vec3.scale (cam.pixelLengthX *
              ((x : ℚ) + (-(1 / 2 : ℚ) +
                (draw01 (makeSeededRandomEngine E iter x y)).1) -
                (cam.resolutionX : ℚ) * (1 / 2))) cam.right))
          (Vec3.scale (cam.pixelLengthY *
            ((y : ℚ) + (-(1 / 2 : ℚ) +
              (draw01 (draw01 (makeSeededRandomEngine E iter x y)).2).1) -
              (cam.resolutionY : ℚ) * (1 / 2))) cam.up))) := by
  refine ⟨generateRays_length E cam iter traceDepth, ?_, ?_⟩
  · intro x y hx hy
    rw [generateRays_getD E cam iter traceDepth _ (slot_index_lt hx hy)]
    have hmod : (x + y * cam.resolutionX) % cam.resolutionX = x := by
      rw [Nat.add_mul_mod_self_right, Nat.mod_eq_of_lt hx]
    have hdiv : (x + y * cam.resolutionX) / cam.resolutionX = y := by
      rw [Nat.add_mul_div_right _ _ (by omega : 0 < cam.resolutionX),
        Nat.div_eq_of_lt hx]
      omega
    rw [hmod, hdiv]
  · intro x y
    have h1 := draw01_nonneg (makeSeededRandomEngine E iter x y)
    have h2 := draw01_lt_one (makeSeededRandomEngine E iter x y)
    have h3 := draw01_nonneg (draw01 (makeSeededRandomEngine E iter x y)).2
    have h4 := draw01_lt_one (draw01 (makeSeededRandomEngine E iter x y)).2
    exact ⟨rfl, rfl, rfl, rfl, by linarith, by linarith, by linarith,
      by linarith, rfl⟩

/-- Witness for C8 at a concrete camera and pixel. -/
theorem C8_ray_generator_witness :
    (generateRays trivEnv cexCam 1 3).length = 2 ∧
    (generateRays trivEnv cexCam 1 3).getD (0 + 1 * 1) default =
      generateRayForPixel trivEnv cexCam 1 3 0 1 ∧
    (generateRayForPixel trivEnv cexCam 1 3 0 1).color = Vec3.ones ∧
    (generateRayForPixel trivEnv cexCam 1 3 0 1).remainingBounces = 3 ∧
    -(1 / 2 : ℚ) +
      (draw01 (makeSeededRandomEngine trivEnv 1 0 1)).1 < 1 / 2 := by
  have h := C8_ray_generator trivEnv cexCam 1 3
  have hpp := h.2.2 0 1
  exact ⟨h.1, h.2.1 0 1 (by decide) (by decide), hpp.1, hpp.2.1,
    hpp.2.2.2.2.2.1⟩

/-- C9: ray generation is a deterministic function of
(environment, camera, iteration, trace depth, pixel): the path written
at slot i of the generated buffer equals the pure per-pixel function
applied at (i mod resolution.x, i div resolution.x), with no shared
mutable random-engine state across slots. -/
theorem C9_generator_determinism (E : Env) (cam : Camera)
    (iter traceDepth i : ℕ)
    (h : i < cam.resolutionX * cam.resolutionY) :
    (generateRays E cam iter traceDepth).getD i default =
      generateRayForPixel E cam iter traceDepth (i % cam.resolutionX)
        (i / cam.resolutionX) :=
  generateRays_getD E cam iter traceDepth i h

/-- Witness for C9 at a concrete slot. -/
theorem C9_generator_determinism_witness :
    (generateRays trivEnv cexCam 1 3).getD 1 default =
      generateRayForPixel trivEnv cexCam 1 3 (1 % 1) (1 / 1) :=
  C9_generator_determinism trivEnv cexCam 1 3 1 (by decide)

set_option maxRecDepth 10000 in
/-- Counterexample to C7: a two-pixel scene with two non-emissive
materials in which enabling the material sort changes the accumulated
image.  The sort moves each path to the other slot, and shadeMaterial
seeds its engine with the slot index, so the scatter attenuation draws a
different sample and pixel 0 accumulates a different color. -/
theorem C7_material_sort_counterexample :
    ((pathtrace cexEnv cexGeoms [] cexMats cexCam 1 1 true
      blackImage).map (fun r => r.1 0)) ≠
    ((pathtrace cexEnv cexGeoms [] cexMats cexCam 1 1 false
      blackImage).map (fun r => r.1 0)) := by
  with_unfolding_all decide

/-- C7 as amended: the material sort only permutes the zipped
(intersection, path) pairs — every path stays paired with its own
intersection — and groups them by ascending material id; the per-pixel
result is not in general preserved (see the counterexample), because the
shader draws its samples from an engine seeded by the array slot. -/
theorem C7_material_sort_amended
    (pairs : List (ShadeableIntersection × PathSegment)) :
    (sortStage pairs).Perm pairs ∧
    List.Sorted (fun a b => sortKey a ≤ sortKey b) (sortStage pairs) := by
  constructor
  · exact sortStage_perm pairs
  · haveI : IsTotal (ShadeableIntersection × PathSegment)
        (fun a b => sortKey a ≤ sortKey b) :=
      ⟨fun a b => le_total _ _⟩
    haveI : IsTrans (ShadeableIntersection × PathSegment)
        (fun a b => sortKey a ≤ sortKey b) :=
      ⟨fun _ _ _ hab hbc => le_trans hab hbc⟩
    exact List.sorted_insertionSort _ _

theorem termView_mem {l : List PathSegment} {p : ℕ} {c : Vec3} :
    (p, c) ∈ termView l ↔
      ∃ x ∈ l, x.remainingBounces ≤ 0 ∧ x.pixelIndex = p ∧
        x.color = c := by
  unfold termView
  rw [Multiset.mem_coe]
  constructor
  · intro h
    obtain ⟨x, hx, hxe⟩ := List.mem_map.mp h
    have hx2 := List.mem_filter.mp hx
    refine ⟨x, hx2.1, ?_, ?_, ?_⟩
    · have := hx2.2
      simp only [Bool.not_eq_true'] at this
      unfold has_no_bounces at this
      have := of_decide_eq_false this
      omega
    · exact (Prod.mk.injEq _ _ _ _).mp hxe |>.1
    · exact (Prod.mk.injEq _ _ _ _).mp hxe |>.2
  · rintro ⟨x, hx, hrb, hp, hc⟩
    refine List.mem_map.mpr ⟨x, ?_, by rw [hp, hc]⟩
    refine List.mem_filter.mpr ⟨hx, ?_⟩
    simp only [Bool.not_eq_true']
    unfold has_no_bounces
    exact decide_eq_false (by omega)

theorem filter_pix_eq_single {p : ℕ} :
    ∀ (l : List PathSegment) (x : PathSegment), (pixList l).Nodup →
      x ∈ l → x.pixelIndex = p →
      l.filter (fun q => q.pixelIndex = p) = [x] := by
  intro l
  induction l with
  | nil => intro x _ hx; cases hx
  | cons a rest ih =>
    intro x hnd hx hxp
    have hnd2 : (pixList rest).Nodup ∧ a.pixelIndex ∉ pixList rest := by
      unfold pixList at hnd ⊢
      rw [List.map_cons, List.nodup_cons] at hnd
      exact ⟨hnd.2, hnd.1⟩
    rcases List.mem_cons.mp hx with rfl | hx2
    · rw [List.filter_cons, if_pos (decide_eq_true hxp)]
      have hnil : rest.filter (fun q => q.pixelIndex = p) = [] := by
        rw [List.filter_eq_nil_iff]
        intro q hq hdq
        have hqp : q.pixelIndex = p := of_decide_eq_true hdq
        apply hnd2.2
        rw [hxp, ← hqp]
        exact List.mem_map.mpr ⟨q, hq, rfl⟩
      rw [hnil]
    · have hap : ¬(a.pixelIndex = p) := by
        intro hap
        apply hnd2.2
        rw [hap, ← hxp]
        exact List.mem_map.mpr ⟨x, hx2, rfl⟩
      rw [List.filter_cons, if_neg (by simpa using hap)]
      exact ih x hnd2.1 hx2 hxp

/-- C10: once a path terminates, no later stage of the iteration touches
its color or pixelIndex.  The shader leaves paths with no remaining
bounces untouched; each loop pass only adds to the multiset of
terminated (pixelIndex, color) observations; and from any state, the
run preserves every terminated observation all the way to the
accumulator, which then adds exactly that color to that pixel. -/
theorem C10_terminated_frozen (E : Env) (geoms triangles : List Geom)
    (materials : List Material) (iter depth idx : ℕ)
    (isect : ShadeableIntersection) (path : PathSegment) (matSort : Bool)
    (traceDepth pixelcount fuel : ℕ) (s sf : LoopState)
    (image : ℕ → Vec3) (p : ℕ) (c : Vec3) :
    (path.remainingBounces = 0 →
      shadeOne E materials iter depth idx isect path = path) ∧
    (termView s.paths ≤
      termView (loopStep E geoms triangles materials iter matSort
        s).paths) ∧
    (loopRun E geoms triangles materials iter matSort traceDepth
        pixelcount fuel s = some sf →
      (p, c) ∈ termView s.paths →
      (p, c) ∈ termView sf.paths ∧
        ((pixList sf.paths).Nodup → sf.paths.length ≤ sf.numPaths →
          finalGatherImage image (sf.paths.take sf.numPaths) p =
            Vec3.add (image p) c)) := by
  refine ⟨fun h0 => shadeOne_untouched E materials iter depth idx isect
    path (le_of_eq h0),
    loopStep_termView E geoms triangles materials iter matSort s, ?_⟩
  intro hrun hmem
  have hmono := loopRun_chain E geoms triangles materials iter matSort
    traceDepth pixelcount (fun a b => termView a ≤ termView b)
    (fun a b c2 hab hbc => le_trans hab hbc)
    (fun st => loopStep_termView E geoms triangles materials iter
      matSort st)
    fuel s sf hrun
  have hfin : (p, c) ∈ termView sf.paths :=
    Multiset.mem_of_le hmono hmem
  refine ⟨hfin, ?_⟩
  intro hnd hle
  obtain ⟨x, hx, hrb, hxp, hxc⟩ := termView_mem.mp hfin
  rw [List.take_of_length_le hle, finalGather_char,
    filter_pix_eq_single sf.paths x hnd hx hxp]
  show Vec3.add (image p) (Vec3.add x.color Vec3.zero) = _
  rw [Vec3.add_zero_right, hxc]

/-- Witness for C10: a concrete run started with a terminated path. -/
theorem C10_terminated_frozen_witness :
    (shadeOne trivEnv matsDiff 1 1 0 hitIsect cpath0 = cpath0) ∧
    ((9, (⟨3, 4, 5⟩ : Vec3)) ∈ termView c10sf.paths ∧
      finalGatherImage blackImage (c10sf.paths.take c10sf.numPaths) 9 =
        Vec3.add (blackImage 9) ⟨3, 4, 5⟩) := by
  have h := C10_terminated_frozen trivEnv [] [] [] 1 1 0 hitIsect cpath0
    false 3 1 1 c10s0 c10sf blackImage 9 ⟨3, 4, 5⟩
  have hrun : loopRun trivEnv [] [] [] 1 false 3 1 1 c10s0 =
      some c10sf := rfl
  have hmem : ((9 : ℕ), (⟨3, 4, 5⟩ : Vec3)) ∈ termView c10s0.paths := by
    decide
  have h3 := h.2.2 hrun hmem
  exact ⟨h.1 rfl, h3.1, h3.2 (by decide) (by decide)⟩

theorem loopStep_iterate_depth (E : Env) (geoms triangles : List Geom)
    (materials : List Material) (iter : ℕ) (matSort : Bool) :
    ∀ (k : ℕ) (s : LoopState),
      ((loopStep E geoms triangles materials iter matSort)^[k] s).depth =
        s.depth + k := by
  intro k
  induction k with
  | zero => intro s; rfl
  | succ n ih =>
    intro s
    rw [Function.iterate_succ_apply', loopStep_depth, ih]
    omega

theorem shadeListG_erase (E : Env) (materials : List Material)
    (iter depth : ℕ) :
    ∀ (idx : ℕ)
      (pairsG : List (ShadeableIntersection × (PathSegment × ℕ))),
      (shadeListG E materials iter depth idx pairsG).map
        (fun pc => pc.1) =
        shadeList E materials iter depth idx
          (pairsG.map (fun ip => (ip.1, ip.2.1))) := by
  intro idx pairsG
  induction pairsG generalizing idx with
  | nil => rfl
  | cons ip rest ih =>
    simp only [shadeListG, shadeList, List.map_cons]
    rw [ih]

theorem sortStageG_erase
    (pairsG : List (ShadeableIntersection × (PathSegment × ℕ))) :
    (sortStageG pairsG).map (fun ip => (ip.1, ip.2.1)) =
      sortStage (pairsG.map (fun ip => (ip.1, ip.2.1))) := by
  unfold sortStageG sortStage
  exact List.map_insertionSort _ _ _ _ (fun a _ b _ => Iff.rfl)

theorem stepShadedG_erase (E : Env) (geoms triangles : List Geom)
    (materials : List Material) (iter : ℕ) (matSort : Bool)
    (s : LoopStateG) :
    (stepShadedG E geoms triangles materials iter matSort s).map
      (fun pc => pc.1) =
      stepShaded E geoms triangles materials iter matSort (eraseG s) := by
  unfold stepShadedG stepShaded
  rw [shadeListG_erase]
  congr 1
  have hbase : ((s.paths.take s.numPaths).map (fun pc =>
      ((computeIntersectionsOne E geoms triangles pc.1).1,
        ((computeIntersectionsOne E geoms triangles pc.1).2,
          pc.2)))).map (fun ip => (ip.1, ip.2.1)) =
      ((eraseG s).paths.take (eraseG s).numPaths).map
        (fun p => computeIntersectionsOne E geoms triangles p) := by
    show _ = ((s.paths.map (fun pc => pc.1)).take s.numPaths).map _
    rw [List.map_map, ← List.map_take, List.map_map]
    rfl
  by_cases hms : matSort
  · rw [if_pos hms, if_pos hms, sortStageG_erase, hbase]
  · rw [if_neg hms, if_neg hms, hbase]

theorem loopStepG_eq (E : Env) (geoms triangles : List Geom)
    (materials : List Material) (iter : ℕ) (matSort : Bool)
    (s : LoopStateG) :
    loopStepG E geoms triangles materials iter matSort s =
      { paths :=
          (stepShadedG E geoms triangles materials iter matSort s).filter
              (fun pc => has_no_bounces pc.1) ++
            (stepShadedG E geoms triangles materials iter matSort
              s).filter (fun pc => !has_no_bounces pc.1) ++
            s.paths.drop s.numPaths,
        numPaths :=
          ((stepShadedG E geoms triangles materials iter matSort
            s).filter (fun pc => has_no_bounces pc.1)).length,
        depth := s.depth + 1 } := by
  unfold loopStepG stepShadedG
  simp only [List.partition_eq_filter_filter]
  rfl

theorem loopStepG_erase (E : Env) (geoms triangles : List Geom)
    (materials : List Material) (iter : ℕ) (matSort : Bool)
    (s : LoopStateG) :
    eraseG (loopStepG E geoms triangles materials iter matSort s) =
      loopStep E geoms triangles materials iter matSort (eraseG s) := by
  rw [loopStepG_eq, loopStep_eq]
  have hfil : ∀ pr : PathSegment → Bool,
      ((stepShadedG E geoms triangles materials iter matSort s).filter
        (fun pc => pr pc.1)).map (fun pc => pc.1) =
      (stepShaded E geoms triangles materials iter matSort
        (eraseG s)).filter pr := by
    intro pr
    rw [← stepShadedG_erase, List.filter_map]
    rfl
  show ({ paths := _, numPaths := _, depth := _ } : LoopState) = _
  unfold eraseG
  simp only [List.map_append]
  rw [hfil has_no_bounces, hfil (fun p => !has_no_bounces p),
    List.map_drop]
  have hlen : ((stepShadedG E geoms triangles materials iter matSort
      s).filter (fun pc => has_no_bounces pc.1)).length =
      ((stepShaded E geoms triangles materials iter matSort
        (eraseG s)).filter has_no_bounces).length := by
    rw [← hfil has_no_bounces, List.length_map]
  rw [hlen]
  rfl

theorem loopRunG_erase (E : Env) (geoms triangles : List Geom)
    (materials : List Material) (iter : ℕ) (matSort : Bool)
    (traceDepth pixelcount : ℕ) :
    ∀ (fuel : ℕ) (sG : LoopStateG),
      loopRun E geoms triangles materials iter matSort traceDepth
          pixelcount fuel (eraseG sG) =
        Option.map eraseG
          (loopRunG E geoms triangles materials iter matSort traceDepth
            pixelcount fuel sG) := by
  intro fuel
  induction fuel with
  | zero => intro sG; rfl
  | succ n ih =>
    intro sG
    simp only [loopRun, loopRunG]
    rw [← loopStepG_erase]
    by_cases hex :
        (loopStepG E geoms triangles materials iter matSort sG).depth =
          traceDepth ∨
        (loopStepG E geoms triangles materials iter matSort
          sG).numPaths = 0
    · have hb : loopExit traceDepth
          (eraseG (loopStepG E geoms triangles materials iter matSort
            sG)) = true := decide_eq_true hex
      rw [if_pos hb, if_pos hex]
      rfl
    · have hb : ¬(loopExit traceDepth
          (eraseG (loopStepG E geoms triangles materials iter matSort
            sG)) = true) := fun hcon => hex (of_decide_eq_true hcon)
      rw [if_neg hb, if_neg hex]
      exact ih (loopStepG E geoms triangles materials iter matSort sG)

theorem shadeListG_mem (E : Env) (materials : List Material)
    (iter depth : ℕ) {x : PathSegment × ℕ} :
    ∀ {idx : ℕ}
      {pairsG : List (ShadeableIntersection × (PathSegment × ℕ))},
      x ∈ shadeListG E materials iter depth idx pairsG →
      ∃ j ip, ip ∈ pairsG ∧
        x = (shadeOne E materials iter depth j ip.1 ip.2.1,
          if ip.2.1.remainingBounces > 0 then ip.2.2 + 1 else ip.2.2) := by
  intro idx pairsG
  induction pairsG generalizing idx with
  | nil => intro h; cases h
  | cons ip rest ih =>
    intro h
    rcases List.mem_cons.mp h with h1 | h2
    · exact ⟨idx, ip, List.mem_cons_self _ _, h1⟩
    · obtain ⟨j, ip2, hmem, heq⟩ := ih h2
      exact ⟨j, ip2, List.mem_cons_of_mem _ hmem, heq⟩

theorem stepShadedG_mem (E : Env) (geoms triangles : List Geom)
    (materials : List Material) (iter : ℕ) (matSort : Bool)
    (s : LoopStateG) (P : PathSegment × ℕ → Prop)
    (hIs : ∀ pc : PathSegment × ℕ, P pc →
      P ((computeIntersectionsOne E geoms triangles pc.1).2, pc.2))
    (hSh : ∀ (d idx : ℕ) (isect : ShadeableIntersection)
      (pc : PathSegment × ℕ), P pc →
      P (shadeOne E materials iter d idx isect pc.1,
        if pc.1.remainingBounces > 0 then pc.2 + 1 else pc.2))
    (hAll : ∀ pc ∈ s.paths, P pc) :
    ∀ x ∈ stepShadedG E geoms triangles materials iter matSort s,
      P x := by
  intro x hx
  unfold stepShadedG at hx
  obtain ⟨j, ip, hmem, heq⟩ := shadeListG_mem E materials iter
    (s.depth + 1) hx
  have hip : ip ∈ (s.paths.take s.numPaths).map (fun pc =>
      ((computeIntersectionsOne E geoms triangles pc.1).1,
        ((computeIntersectionsOne E geoms triangles pc.1).2, pc.2))) := by
    by_cases hms : matSort
    · rw [if_pos hms] at hmem
      exact (List.perm_insertionSort _ _).mem_iff.mp hmem
    · rwa [if_neg hms] at hmem
  obtain ⟨pc, hpcmem, hpceq⟩ := List.mem_map.mp hip
  have hPpc : P pc := hAll pc (List.take_subset _ _ hpcmem)
  have hP2 : P ip.2 := by
    rw [← hpceq]
    exact hIs pc hPpc
  rw [heq]
  exact hSh _ _ _ _ hP2

theorem loopStepG_mem (E : Env) (geoms triangles : List Geom)
    (materials : List Material) (iter : ℕ) (matSort : Bool)
    (s : LoopStateG) (P : PathSegment × ℕ → Prop)
    (hIs : ∀ pc : PathSegment × ℕ, P pc →
      P ((computeIntersectionsOne E geoms triangles pc.1).2, pc.2))
    (hSh : ∀ (d idx : ℕ) (isect : ShadeableIntersection)
      (pc : PathSegment × ℕ), P pc →
      P (shadeOne E materials iter d idx isect pc.1,
        if pc.1.remainingBounces > 0 then pc.2 + 1 else pc.2))
    (hAll : ∀ pc ∈ s.paths, P pc) :
    ∀ q ∈ (loopStepG E geoms triangles materials iter matSort s).paths,
      P q := by
  intro q hq
  rw [loopStepG_eq] at hq
  have hsh := stepShadedG_mem E geoms triangles materials iter matSort
    s P hIs hSh hAll
  rcases List.mem_append.mp hq with hq1 | htl
  · rcases List.mem_append.mp hq1 with hf1 | hf2
    · exact hsh q (List.mem_of_mem_filter hf1)
    · exact hsh q (List.mem_of_mem_filter hf2)
  · exact hAll q (List.drop_subset _ _ htl)

theorem loopRunG_mem (E : Env) (geoms triangles : List Geom)
    (materials : List Material) (iter : ℕ) (matSort : Bool)
    (traceDepth pixelcount : ℕ) (P : PathSegment × ℕ → Prop)
    (hIs : ∀ pc : PathSegment × ℕ, P pc →
      P ((computeIntersectionsOne E geoms triangles pc.1).2, pc.2))
    (hSh : ∀ (d idx : ℕ) (isect : ShadeableIntersection)
      (pc : PathSegment × ℕ), P pc →
      P (shadeOne E materials iter d idx isect pc.1,
        if pc.1.remainingBounces > 0 then pc.2 + 1 else pc.2)) :
    ∀ (fuel : ℕ) (sG sfG : LoopStateG),
      loopRunG E geoms triangles materials iter matSort traceDepth
          pixelcount fuel sG = some sfG →
      (∀ pc ∈ sG.paths, P pc) → ∀ pc ∈ sfG.paths, P pc := by
  intro fuel
  induction fuel with
  | zero => intro sG sfG h; simp [loopRunG] at h
  | succ n ih =>
    intro sG sfG h hAll
    simp only [loopRunG] at h
    split at h
    · injection h with h2
      rw [← h2]
      exact loopStepG_mem E geoms triangles materials iter matSort sG P
        hIs hSh hAll
    · exact ih _ _ h (loopStepG_mem E geoms triangles materials iter
        matSort sG P hIs hSh hAll)

/-- C6: the bounce loop always terminates (the per-iteration entry point
with fuel traceDepth + 1 always returns a result); a completed loop run
stops at the first pass k whose state satisfies depth == traceDepth or
active count == 0, having run exactly k = depth passes (so on the
depth == traceDepth exit exactly traceDepth shading passes have run);
the ghost-instrumented loop, which counts the shader writes each path
receives (the kernel writes a path exactly when its remainingBounces is
positive), keeps every counter at most traceDepth whenever counters
start at 0 and bounce budgets start at traceDepth; and erasing the ghost
counters gives back exactly the real loop. -/
theorem C6_loop_termination (E : Env) (geoms triangles : List Geom)
    (materials : List Material) (cam : Camera)
    (iter traceDepth pixelcount fuel : ℕ) (matSort : Bool)
    (image : ℕ → Vec3) (s sf : LoopState) (sG sfG : LoopStateG) :
    (∃ r, pathtrace E geoms triangles materials cam traceDepth iter
      matSort image = some r) ∧
    (loopRun E geoms triangles materials iter matSort traceDepth
        pixelcount fuel s = some sf →
      ∃ k, 1 ≤ k ∧ k ≤ fuel ∧
        loopExit traceDepth
          ((loopStep E geoms triangles materials iter matSort)^[k] s) =
            true ∧
        (∀ j, 1 ≤ j → j < k →
          loopExit traceDepth
            ((loopStep E geoms triangles materials iter matSort)^[j]
              s) = false) ∧
        sf = { (loopStep E geoms triangles materials iter matSort)^[k]
          s with numPaths := pixelcount } ∧
        ((loopStep E geoms triangles materials iter matSort)^[k]
          s).depth = s.depth + k) ∧
    (loopRunG E geoms triangles materials iter matSort traceDepth
        pixelcount fuel sG = some sfG →
      (∀ pc ∈ sG.paths, 0 ≤ pc.1.remainingBounces ∧
        (pc.2 : ℤ) + pc.1.remainingBounces ≤ (traceDepth : ℤ)) →
      ∀ pc ∈ sfG.paths, pc.2 ≤ traceDepth) ∧
    (loopRun E geoms triangles materials iter matSort traceDepth
        pixelcount fuel (eraseG sG) =
      Option.map eraseG (loopRunG E geoms triangles materials iter
        matSort traceDepth pixelcount fuel sG)) := by
  refine ⟨pathtrace_some E geoms triangles materials cam traceDepth iter
    matSort image, ?_, ?_,
    loopRunG_erase E geoms triangles materials iter matSort traceDepth
      pixelcount fuel sG⟩
  · intro hrun
    obtain ⟨k, hk1, hk2, hexit, hnoexit, hsf⟩ := loopRun_spec E geoms
      triangles materials iter matSort traceDepth pixelcount fuel s sf
      hrun
    exact ⟨k, hk1, hk2, hexit, hnoexit, hsf,
      loopStep_iterate_depth E geoms triangles materials iter matSort
        k s⟩
  · intro hrun hAll
    have hmem := loopRunG_mem E geoms triangles materials iter matSort
      traceDepth pixelcount
      (fun pc => 0 ≤ pc.1.remainingBounces ∧
        (pc.2 : ℤ) + pc.1.remainingBounces ≤ (traceDepth : ℤ))
      (fun pc hpc => by
        refine ⟨?_, ?_⟩
        · show (0 : ℤ) ≤ (computeIntersectionsOne E geoms triangles
            pc.1).2.remainingBounces
          rw [(isectOne_snd_fields E geoms triangles pc.1).2.2]
          exact hpc.1
        · show (pc.2 : ℤ) + (computeIntersectionsOne E geoms triangles
            pc.1).2.remainingBounces ≤ _
          rw [(isectOne_snd_fields E geoms triangles pc.1).2.2]
          exact hpc.2)
      (fun d idx isect pc hpc => by
        by_cases hb : pc.1.remainingBounces > 0
        · rw [if_pos hb]
          have h1 := shadeOne_rb_nonneg E materials iter d idx isect
            pc.1 hpc.1
          have h2 := shadeOne_write_rb_lt E materials iter d idx isect
            pc.1 hb
          refine ⟨h1, ?_⟩
          have := hpc.2
          push_cast
          push_cast at this
          omega
        · rw [if_neg hb]
          have hz : pc.1.remainingBounces ≤ 0 := by omega
          rw [shadeOne_untouched E materials iter d idx isect pc.1 hz]
          exact hpc)
      fuel sG sfG hrun hAll
    intro pc hpc
    have := hmem pc hpc
    omega

/-- Witness for C6 at a concrete 1-pixel, 1-bounce configuration. -/
theorem C6_loop_termination_witness :
    (pathtrace trivEnv [] [] [] unitCam 1 1 false blackImage).isSome =
      true ∧
    c1wit_r.2.numPaths = 1 ∧
    (c6gf.paths.getD 0 default).2 ≤ 1 ∧
    loopRun trivEnv [] [] [] 1 false 1 1 2 (eraseG c6g0) =
      Option.map eraseG (loopRunG trivEnv [] [] [] 1 false 1 1 2
        c6g0) := by
  have h := C6_loop_termination trivEnv [] [] [] unitCam 1 1 1 2 false
    blackImage
    { paths := generateRays trivEnv unitCam 1 1, numPaths := 1,
      depth := 0 }
    c1wit_r.2 c6g0 c6gf
  have hrun : loopRun trivEnv [] [] [] 1 false 1 1 2
      { paths := generateRays trivEnv unitCam 1 1, numPaths := 1,
        depth := 0 } = some c1wit_r.2 := rfl
  have hrunG : loopRunG trivEnv [] [] [] 1 false 1 1 2 c6g0 =
      some c6gf := rfl
  obtain ⟨k, _, _, _, _, hsf, _⟩ := h.2.1 hrun
  have hcnt := h.2.2.1 hrunG (by decide)
  refine ⟨?_, ?_, ?_, h.2.2.2⟩
  · obtain ⟨r, hr⟩ := h.1
    rw [hr]
    rfl
  · rw [hsf]
  · refine hcnt _ ?_
    show c6gf.paths.getD 0 default ∈ c6gf.paths
    have : c6gf.paths.length = 1 := by decide
    rw [List.getD_eq_getElem _ _ (by omega)]
    exact List.getElem_mem _
